import Mathlib

/-!
Verification development for `CreateProperties.py`: a shallow embedding of the
HubSpot property-import script (name normalizer, type mapper, schema client,
per-row reconciliation loop) together with theorems settling the specification
claims about it.

Conventions of the embedding:
* Python strings are Lean `String`s (lists of `Char`); character classes are
  expressed through code points (`Char.toNat`).
* The remote HTTP API is a parameter (`RemoteApi σ`): each call takes and
  returns an abstract remote state `σ` and either a response or a
  transport-level exception (modelled as `Except String`).
* Uncaught Python exceptions (transport errors escaping `requests`, `KeyError`
  on a missing CSV column) surface as `Except.error` results of `process_csv`.
-/

/-! ### Python string primitives -/

/-- Python `str.strip` whitespace test (space, tab, LF, CR, VT, FF). -/
def pyIsSpace (c : Char) : Bool :=
  decide (c.toNat = 32 ∨ c.toNat = 9 ∨ c.toNat = 10 ∨ c.toNat = 13 ∨
          c.toNat = 11 ∨ c.toNat = 12)

/-- Python `str.strip` on a character list: drop whitespace from both ends. -/
def pyStripChars (cs : List Char) : List Char :=
  ((cs.dropWhile pyIsSpace).reverse.dropWhile pyIsSpace).reverse

/-- Python `str.strip`. -/
def pyStrip (s : String) : String :=
  ⟨pyStripChars s.data⟩

/-- Characters kept by `re.sub(r'[^A-Za-z0-9 ]+', '', ·)`:
ASCII letters, digits and the space. -/
def isKeptChar (c : Char) : Bool :=
  decide ((65 ≤ c.toNat ∧ c.toNat ≤ 90) ∨ (97 ≤ c.toNat ∧ c.toNat ≤ 122) ∨
          (48 ≤ c.toNat ∧ c.toNat ≤ 57) ∨ c.toNat = 32)

/-- Python `str.lower` on one character (ASCII case mapping, which is all the
script ever feeds it). -/
def lowerChar (c : Char) : Char :=
  if 65 ≤ c.toNat ∧ c.toNat ≤ 90 then Char.ofNat (c.toNat + 32) else c

/-- Python `str.replace(" ", "_")` on one character. -/
def replaceSpaceChar (c : Char) : Char :=
  if c.toNat = 32 then '_' else c

/-- `generate_api_property_name` (CreateProperties.py lines 78-85):
`re.sub(r'[^A-Za-z0-9 ]+', '', original_name).strip().lower().replace(" ", "_")`. -/
def generate_api_property_name (original_name : String) : String :=
  ⟨(pyStripChars (original_name.data.filter isKeptChar)).map
    (fun c => replaceSpaceChar (lowerChar c))⟩

/-- `opt.lower().replace(" ", "_")` — the option-value normalization used in
`process_csv` (line 206): lowercase plus space-to-underscore, no stripping. -/
def lowerUnderscore (s : String) : String :=
  ⟨s.data.map (fun c => replaceSpaceChar (lowerChar c))⟩

/-! ### Static tables and constants -/

/-- One entry of `TYPE_MAPPING`: the target `type`, `fieldType`, and whether the
`multiple` key is present (only `Multiple Checkboxes` sets it). -/
structure TypeMapping where
  type : String
  fieldType : String
  multiple : Bool := false
deriving DecidableEq, Repr

/-- `TYPE_MAPPING` (lines 39-51) as a lookup by key. -/
def TYPE_MAPPING (rawType : String) : Option TypeMapping :=
  if rawType = "Text" then some ⟨"string", "text", false⟩
  else if rawType = "Single-line Text" then some ⟨"string", "text", false⟩
  else if rawType = "Multi-line Text" then some ⟨"string", "textarea", false⟩
  else if rawType = "Number" then some ⟨"number", "number", false⟩
  else if rawType = "Currency Number" then some ⟨"number", "number", false⟩
  else if rawType = "Dropdown" then some ⟨"enumeration", "select", false⟩
  else if rawType = "Multiple Checkboxes" then some ⟨"enumeration", "select", true⟩
  else if rawType = "Unformatted Number" then some ⟨"number", "number", false⟩
  else if rawType = "Single Checkbox" then some ⟨"bool", "booleancheckbox", false⟩
  else if rawType = "HubSpot User" then some ⟨"string", "text", false⟩
  else if rawType = "Date Picker" then some ⟨"date", "date", false⟩
  else none

/-- `OBJECT_TYPE_MAPPING` (lines 54-58). -/
def OBJECT_TYPE_MAPPING (objectTypeRaw : String) : Option String :=
  if objectTypeRaw = "Contact" then some "contacts"
  else if objectTypeRaw = "Company" then some "companies"
  else if objectTypeRaw = "Deal" then some "deals"
  else none

/-- `OBJECT_TYPE_MAPPING.get(object_type_raw, object_type_raw)` (line 160). -/
def slugOf (objectTypeRaw : String) : String :=
  (OBJECT_TYPE_MAPPING objectTypeRaw).getD objectTypeRaw

def GROUP_ID : String := "api_imported_properties"

def GROUP_DISPLAY_NAME : String := "ATI Seminars Properties - API"

/-- The error subcategory treated as "already exists" (line 230). -/
def NON_UNIQUE_LABEL : String := "PropertyValidationError.NON_UNIQUE_PROPERTY_LABEL"

/-! ### Rows and payloads -/

/-- One parsed CSV row after the four `row[...] .strip()` accesses
(lines 154-157). -/
structure ParsedRow where
  originalName : String
  rawType : String
  rawOptions : String
  objectTypeRaw : String
deriving DecidableEq, Repr

/-- One entry of the `options` list (line 207). -/
structure PropertyOption where
  label : String
  value : String
deriving DecidableEq, Repr

/-- The creation payload (lines 191-208).  `multiple` is a plain `Bool`:
the key is present exactly when the mapping sets it.  `options` is `some`
exactly when the options key is added. -/
structure PropertyPayload where
  name : String
  label : String
  groupName : String
  type : String
  fieldType : String
  multiple : Bool := false
  options : Option (List PropertyOption) := none
deriving DecidableEq, Repr

/-- Helper for Python `str.split(",")`: accumulate the current token
(reversed) and cut at every comma. -/
def splitCommaAux : List Char → List Char → List String
  | [], acc => [⟨acc.reverse⟩]
  | c :: cs, acc =>
    if c = ',' then ⟨acc.reverse⟩ :: splitCommaAux cs []
    else splitCommaAux cs (c :: acc)

/-- Python `prop_options_raw.split(",")`: every comma separates, empty pieces
are kept (`"".split(",") == [""]`). -/
def pySplitComma (s : String) : List String :=
  splitCommaAux s.data []

/-- The option list built at lines 203-207: split the raw text on commas,
strip each token, drop empty tokens, and pair each token with its
lowercase-and-underscore value. -/
def build_options (prop_options_raw : String) : List PropertyOption :=
  (((pySplitComma prop_options_raw).map pyStrip).filter (fun o => o ≠ "")).map
    (fun opt => ⟨opt, lowerUnderscore opt⟩)

/-- The payload of lines 191-208 for a parsed row and its type mapping. -/
def build_payload (p : ParsedRow) (mapping : TypeMapping) : PropertyPayload :=
  { name := generate_api_property_name p.originalName
    label := p.originalName
    groupName := GROUP_ID
    type := mapping.type
    fieldType := mapping.fieldType
    multiple := mapping.multiple
    options :=
      if (p.rawType = "Dropdown" ∨ p.rawType = "Multiple Checkboxes" ∨
          p.rawType = "Single Checkbox") ∧ p.rawOptions ≠ "" then
        some (build_options p.rawOptions)
      else none }

/-! ### The remote schema service -/

/-- What the script observes of an HTTP response: the status code, the parsed
body's `subCategory` field (`none` when the body is unparsable or lacks it),
and — for the group-listing call — the `results[].name` entries. -/
structure HttpResponse where
  status : Nat
  subCategory : Option String := none
  groupNames : List String := []
deriving DecidableEq, Repr

/-- The four remote operations of the schema client, as a state machine over an
abstract remote state `σ`.  A `.error msg` result models a transport-level
exception raised by `requests`. -/
structure RemoteApi (σ : Type) where
  getGroups : σ → String → σ × Except String HttpResponse
  postGroup : σ → String → String → String → σ × Except String HttpResponse
  getProp : σ → String → String → σ × Except String HttpResponse
  postProp : σ → String → PropertyPayload → σ × Except String HttpResponse

/-- `ensure_property_group` (lines 87-117).  The whole body is inside
`try/except`, so a transport exception anywhere becomes `false`. -/
def ensure_property_group (api : RemoteApi σ) (s : σ)
    (object_type_api group_id display_name : String) : σ × Bool :=
  match api.getGroups s object_type_api with
  | (s₁, .error _) => (s₁, false)
  | (s₁, .ok resp) =>
    if resp.status = 200 then
      if group_id ∈ resp.groupNames then (s₁, true)
      else
        match api.postGroup s₁ object_type_api group_id display_name with
        | (s₂, .error _) => (s₂, false)
        | (s₂, .ok create_resp) =>
          (s₂, decide (create_resp.status = 200 ∨ create_resp.status = 201))
    else (s₁, false)

/-- `property_exists` (lines 119-131).  No `try/except`: a transport exception
propagates (`Except.error`); an unexpected status becomes the `None` sentinel
(`some none` here: the call returned, with an ambiguous answer). -/
def property_exists (api : RemoteApi σ) (s : σ)
    (object_type_api property_name : String) : σ × Except String (Option Bool) :=
  match api.getProp s object_type_api property_name with
  | (s₁, .error e) => (s₁, .error e)
  | (s₁, .ok resp) =>
    if resp.status = 200 then (s₁, .ok (some true))
    else if resp.status = 404 then (s₁, .ok (some false))
    else (s₁, .ok none)

/-- `create_property` (lines 133-139): raw pass-through of the POST. -/
def create_property (api : RemoteApi σ) (s : σ)
    (object_type_api : String) (payload : PropertyPayload) :
    σ × Except String HttpResponse :=
  api.postProp s object_type_api payload

/-! ### The reconciliation run -/

/-- Uncaught Python exceptions that can escape `process_csv`: a transport
exception from `requests`, or a `KeyError` from `row[...]` on a missing
column. -/
inductive PyError where
  | transport (msg : String)
  | keyError (key : String)
deriving DecidableEq, Repr

/-- The terminal state a processed row reaches: which of the three lists its
original name is appended to. -/
inductive RowOutcome where
  | created
  | skipped
  | errored
deriving DecidableEq, Repr

/-- The final summary (lines 240-243). -/
structure RunSummary where
  created : List String
  skipped : List String
  errors : List String
deriving DecidableEq, Repr

/-- The four column accesses of lines 154-157, in source order.  `row[k]` on a
missing key raises `KeyError`. -/
def parseRow (row : List (String × String)) : Except PyError ParsedRow :=
  match row.lookup "Property Name" with
  | none => .error (.keyError "Property Name")
  | some v₁ =>
    match row.lookup "Property Type" with
    | none => .error (.keyError "Property Type")
    | some v₂ =>
      match row.lookup "Property Options" with
      | none => .error (.keyError "Property Options")
      | some v₃ =>
        match row.lookup "Object Type" with
        | none => .error (.keyError "Object Type")
        | some v₄ => .ok ⟨pyStrip v₁, pyStrip v₂, pyStrip v₃, pyStrip v₄⟩

/-- One iteration of the `for row in reader` loop (lines 151-237), returning
the advanced remote state, the group-check cache, and the row's original name
together with the list it is appended to — or the uncaught exception that
aborts the run. -/
def rowStep (api : RemoteApi σ) (remote : σ) (gc : List (String × Bool))
    (row : List (String × String)) :
    Except PyError (σ × List (String × Bool) × String × RowOutcome) :=
  match parseRow row with
  | .error e => .error e
  | .ok p =>
    let object_type_api := slugOf p.objectTypeRaw
    if object_type_api = "" then
      .ok (remote, gc, p.originalName, .errored)
    else
      -- lines 167-172: ensure the group once per object type
      let ensured : σ × List (String × Bool) :=
        match gc.lookup object_type_api with
        | some _ => (remote, gc)
        | none =>
          let res := ensure_property_group api remote object_type_api
            GROUP_ID GROUP_DISPLAY_NAME
          (res.1, (object_type_api, res.2) :: gc)
      -- line 173: `if not group_checked[object_type_api]`
      if ((ensured.2.lookup object_type_api).getD false) = false then
        .ok (ensured.1, ensured.2, p.originalName, .errored)
      else
        match TYPE_MAPPING p.rawType with
        | none => .ok (ensured.1, ensured.2, p.originalName, .errored)
        | some mapping =>
          let api_prop_name := generate_api_property_name p.originalName
          let payload := build_payload p mapping
          match property_exists api ensured.1 object_type_api api_prop_name with
          | (_, .error e) => .error (.transport e)
          | (r₁, .ok none) => .ok (r₁, ensured.2, p.originalName, .errored)
          | (r₁, .ok (some true)) => .ok (r₁, ensured.2, p.originalName, .skipped)
          | (r₁, .ok (some false)) =>
            match create_property api r₁ object_type_api payload with
            | (_, .error e) => .error (.transport e)
            | (r₂, .ok resp) =>
              if resp.status = 200 ∨ resp.status = 201 then
                .ok (r₂, ensured.2, p.originalName, .created)
              else if resp.subCategory = some NON_UNIQUE_LABEL then
                .ok (r₂, ensured.2, p.originalName, .skipped)
              else
                .ok (r₂, ensured.2, p.originalName, .errored)

/-- The whole loop of `process_csv`, threading the remote state, the
`group_checked` cache and the three accumulator lists. -/
def processRows (api : RemoteApi σ) (remote : σ) (gc : List (String × Bool))
    (created skipped errors : List String) :
    List (List (String × String)) → Except PyError (σ × RunSummary)
  | [] => .ok (remote, ⟨created, skipped, errors⟩)
  | row :: rest =>
    match rowStep api remote gc row with
    | .error e => .error e
    | .ok (r₁, gc₁, name, .created) =>
      processRows api r₁ gc₁ (created ++ [name]) skipped errors rest
    | .ok (r₁, gc₁, name, .skipped) =>
      processRows api r₁ gc₁ created (skipped ++ [name]) errors rest
    | .ok (r₁, gc₁, name, .errored) =>
      processRows api r₁ gc₁ created skipped (errors ++ [name]) rest

/-- `process_csv` (lines 141-243): empty caches and accumulators, then the
loop; the result is the final remote state plus the logged summary, or the
uncaught exception that aborted the run. -/
def process_csv (api : RemoteApi σ) (remote : σ)
    (rows : List (List (String × String))) : Except PyError (σ × RunSummary) :=
  processRows api remote [] [] [] [] rows

/-- Ghost companion of `processRows`: the per-row (name, outcome) trace of a
run, used to state the partition property. -/
def rowTrace (api : RemoteApi σ) (remote : σ) (gc : List (String × Bool)) :
    List (List (String × String)) → Except PyError (List (String × RowOutcome))
  | [] => .ok []
  | row :: rest =>
    match rowStep api remote gc row with
    | .error e => .error e
    | .ok (r₁, gc₁, name, oc) =>
      match rowTrace api r₁ gc₁ rest with
      | .error e => .error e
      | .ok tr => .ok ((name, oc) :: tr)

/-- The stripped `Property Name` of a row, as the loop reads it. -/
def rowName (row : List (String × String)) : Except PyError String :=
  (parseRow row).map (fun p => p.originalName)

/-- Names of the trace entries with a given outcome, in order. -/
def ofOutcome (oc : RowOutcome) (tr : List (String × RowOutcome)) : List String :=
  (tr.filter (fun x => decide (x.2 = oc))).map Prod.fst

/-- The stripped `Property Name` of every row in order, or the first
`KeyError`. -/
def namesOf : List (List (String × String)) → Except PyError (List String)
  | [] => .ok []
  | row :: rest =>
    match rowName row with
    | .error e => .error e
    | .ok n =>
      match namesOf rest with
      | .error e => .error e
      | .ok ns => .ok (n :: ns)

/-! ### Instrumented and ideal remotes -/

/-- One remote invocation, for counting calls. -/
inductive CallEvent where
  | getGroups (slug : String)
  | postGroup (slug : String)
  | getProp (slug name : String)
  | postProp (slug name : String)
deriving DecidableEq, Repr

/-- Wrap a remote so that its state additionally records the list of calls
made, in order.  Behaviour is unchanged; the trace is ghost instrumentation. -/
def counting (api : RemoteApi σ) : RemoteApi (σ × List CallEvent) where
  getGroups := fun st slug =>
    ((( api.getGroups st.1 slug).1, st.2 ++ [.getGroups slug]), (api.getGroups st.1 slug).2)
  postGroup := fun st slug gid label =>
    (((api.postGroup st.1 slug gid label).1, st.2 ++ [.postGroup slug]),
      (api.postGroup st.1 slug gid label).2)
  getProp := fun st slug name =>
    (((api.getProp st.1 slug name).1, st.2 ++ [.getProp slug name]),
      (api.getProp st.1 slug name).2)
  postProp := fun st slug payload =>
    (((api.postProp st.1 slug payload).1, st.2 ++ [.postProp slug payload.name]),
      (api.postProp st.1 slug payload).2)

/-- Number of group-listing calls for a given object-type slug in a trace. -/
def countGetGroups (tr : List CallEvent) (slug : String) : Nat :=
  (tr.filter (fun ev => decide (ev = .getGroups slug))).length

/-- The remote schema that the spec's idempotence property quantifies over:
which (objectType, groupName) groups and (objectType, propertyName)
properties exist. -/
structure HubState where
  groups : List (String × String)
  props : List (String × String)
deriving DecidableEq, Repr

/-- A faithful HubSpot-like remote: listing reports the groups of the object
type, creation appends and succeeds (201), the property GET answers 200/404 by
membership, and no call ever raises. -/
def idealApi : RemoteApi HubState where
  getGroups := fun s slug =>
    (s, .ok { status := 200,
              groupNames := (s.groups.filter (fun g => decide (g.1 = slug))).map Prod.snd })
  postGroup := fun s slug gid _label =>
    ({ s with groups := s.groups ++ [(slug, gid)] }, .ok { status := 201 })
  getProp := fun s slug name =>
    (s, .ok { status := if (slug, name) ∈ s.props then 200 else 404 })
  postProp := fun s slug payload =>
    ({ s with props := s.props ++ [(slug, payload.name)] }, .ok { status := 201 })

/-- A row that passes every local (non-remote) check: all four columns present,
a non-empty resolved object-type slug, and a known property type. -/
def validRow (row : List (String × String)) : Prop :=
  ∃ p, parseRow row = .ok p ∧ slugOf p.objectTypeRaw ≠ "" ∧
    (TYPE_MAPPING p.rawType).isSome

/-- The stripped `Property Name` of a row, defaulting to `""` when the column
is missing (only used for rows known to parse). -/
def rowNameD (row : List (String × String)) : String :=
  pyStrip ((row.lookup "Property Name").getD "")

/-! ### Concrete fixtures used by witnesses and counterexamples -/

/-- Allowed output alphabet of the normalizer: `[a-z0-9_]`. -/
def isOutChar (c : Char) : Bool :=
  decide ((97 ≤ c.toNat ∧ c.toNat ≤ 122) ∨ (48 ≤ c.toNat ∧ c.toNat ≤ 57) ∨
          c.toNat = 95)

/-- A well-formed sample row. -/
def sampleRow : List (String × String) :=
  [("Property Name", "VIP Status"), ("Property Type", "Single Checkbox"),
   ("Property Options", ""), ("Object Type", "Contact")]

/-- A row whose property type is outside the fixed table. -/
def badTypeRow : List (String × String) :=
  [("Property Name", "X"), ("Property Type", "Weird"),
   ("Property Options", ""), ("Object Type", "Contact")]

/-- A Dropdown row with comma-separated options. -/
def dropdownRow : List (String × String) :=
  [("Property Name", "Favorite Color"), ("Property Type", "Dropdown"),
   ("Property Options", "Red, Blue,  Green"), ("Object Type", "Contact")]

/-- A row missing the `Property Name` column. -/
def missingColumnRow : List (String × String) :=
  [("Property Type", "Text"), ("Property Options", ""), ("Object Type", "Contact")]

/-- A stateless remote where the group already exists, every property GET is
404 and every creation succeeds. -/
def api404 : RemoteApi Unit where
  getGroups := fun s _ => (s, .ok { status := 200, groupNames := [GROUP_ID] })
  postGroup := fun s _ _ _ => (s, .ok { status := 201 })
  getProp := fun s _ _ => (s, .ok { status := 404 })
  postProp := fun s _ _ => (s, .ok { status := 201 })

/-- A stateless remote where every property GET answers 200 (all exist). -/
def api200 : RemoteApi Unit where
  getGroups := fun s _ => (s, .ok { status := 200, groupNames := [GROUP_ID] })
  postGroup := fun s _ _ _ => (s, .ok { status := 201 })
  getProp := fun s _ _ => (s, .ok { status := 200 })
  postProp := fun s _ _ => (s, .ok { status := 201 })

/-- A stateless remote whose property GET raises a transport exception mid-run. -/
def throwGetApi : RemoteApi Unit where
  getGroups := fun s _ => (s, .ok { status := 200, groupNames := [GROUP_ID] })
  postGroup := fun s _ _ _ => (s, .ok { status := 201 })
  getProp := fun s _ _ => (s, .error "ConnectionError")
  postProp := fun s _ _ => (s, .ok { status := 201 })

/-- A stateless remote where the property GET is 404 but the creation POST
raises a transport exception. -/
def throwPostApi : RemoteApi Unit where
  getGroups := fun s _ => (s, .ok { status := 200, groupNames := [GROUP_ID] })
  postGroup := fun s _ _ _ => (s, .ok { status := 201 })
  getProp := fun s _ _ => (s, .ok { status := 404 })
  postProp := fun s _ _ => (s, .error "ConnectionError")

/-- A stateless remote where the group-listing call fails with HTTP 500, so
`ensure_property_group` always reports `false`. -/
def groupFailApi : RemoteApi Unit where
  getGroups := fun s _ => (s, .ok { status := 500 })
  postGroup := fun s _ _ _ => (s, .ok { status := 201 })
  getProp := fun s _ _ => (s, .ok { status := 404 })
  postProp := fun s _ _ => (s, .ok { status := 201 })

/-- A stateless remote whose group-listing call raises a transport exception. -/
def throwGroupApi : RemoteApi Unit where
  getGroups := fun s _ => (s, .error "ConnectionError")
  postGroup := fun s _ _ _ => (s, .ok { status := 201 })
  getProp := fun s _ _ => (s, .ok { status := 404 })
  postProp := fun s _ _ => (s, .ok { status := 201 })

/-! ### Character-level lemmas -/

lemma char_toNat_ofNat {n : Nat} (h : n < 55296) : (Char.ofNat n).toNat = n := by
  have hv : n.isValidChar := Or.inl h
  simp [Char.ofNat, hv, Char.ofNatAux, Char.toNat, UInt32.ofNat', UInt32.toNat]

lemma char_eq_of_toNat_eq {c d : Char} (h : c.toNat = d.toNat) : c = d := by
  apply Char.eq_of_val_eq
  apply UInt32.eq_of_toBitVec_eq
  exact BitVec.eq_of_toNat_eq h

lemma lowerChar_toNat_of_upper {c : Char} (h1 : 65 ≤ c.toNat) (h2 : c.toNat ≤ 90) :
    (lowerChar c).toNat = c.toNat + 32 := by
  rw [lowerChar, if_pos ⟨h1, h2⟩]
  exact char_toNat_ofNat (by omega)

lemma lowerChar_eq_self {c : Char} (h : ¬(65 ≤ c.toNat ∧ c.toNat ≤ 90)) :
    lowerChar c = c := by
  rw [lowerChar, if_neg h]

lemma replaceSpaceChar_eq_self {c : Char} (h : c.toNat ≠ 32) :
    replaceSpaceChar c = c := by
  rw [replaceSpaceChar, if_neg h]

/-- Any character the regex keeps is mapped into `[a-z0-9_]` by
lowercasing-then-underscoring. -/
lemma out_of_kept {c : Char} (h : isKeptChar c = true) :
    isOutChar (replaceSpaceChar (lowerChar c)) = true := by
  simp only [isKeptChar, decide_eq_true_eq] at h
  rcases h with ⟨h1, h2⟩ | ⟨h1, h2⟩ | ⟨h1, h2⟩ | h1
  · have hl := lowerChar_toNat_of_upper h1 h2
    rw [replaceSpaceChar_eq_self (by omega)]
    simp only [isOutChar, decide_eq_true_eq]
    omega
  · rw [lowerChar_eq_self (by omega), replaceSpaceChar_eq_self (by omega)]
    simp only [isOutChar, decide_eq_true_eq]
    omega
  · rw [lowerChar_eq_self (by omega), replaceSpaceChar_eq_self (by omega)]
    simp only [isOutChar, decide_eq_true_eq]
    omega
  · rw [lowerChar_eq_self (by omega)]
    have : replaceSpaceChar c = '_' := by rw [replaceSpaceChar, if_pos h1]
    rw [this]
    decide

lemma mem_pyStripChars {c : Char} {l : List Char} (h : c ∈ pyStripChars l) :
    c ∈ l := by
  unfold pyStripChars at h
  rw [List.mem_reverse] at h
  have h2 := (List.dropWhile_sublist _).subset h
  rw [List.mem_reverse] at h2
  exact (List.dropWhile_sublist _).subset h2

/-- Every character of a normalized name lies in `[a-z0-9_]`. -/
lemma norm_char_mem {s : String} {c : Char}
    (h : c ∈ (generate_api_property_name s).data) : isOutChar c = true := by
  simp only [generate_api_property_name] at h
  rw [List.mem_map] at h
  obtain ⟨a, ha, rfl⟩ := h
  have hmem := mem_pyStripChars ha
  rw [List.mem_filter] at hmem
  exact out_of_kept hmem.2

lemma dropWhile_eq_self_of {l : List Char} (h : ∀ c ∈ l, pyIsSpace c = false) :
    l.dropWhile pyIsSpace = l := by
  cases l with
  | nil => rfl
  | cons a t => simp [List.dropWhile_cons, h a (List.mem_cons_self a t)]

lemma pyStripChars_eq_self {l : List Char} (h : ∀ c ∈ l, pyIsSpace c = false) :
    pyStripChars l = l := by
  unfold pyStripChars
  rw [dropWhile_eq_self_of h,
    dropWhile_eq_self_of (fun c hc => h c (List.mem_reverse.mp hc)),
    List.reverse_reverse]

lemma filter_eq_self_of {l : List Char} {p : Char → Bool}
    (h : ∀ c ∈ l, p c = true) : l.filter p = l := by
  induction l with
  | nil => rfl
  | cons a t ih =>
    rw [List.filter_cons, if_pos (h a (List.mem_cons_self a t))]
    rw [ih (fun c hc => h c (List.mem_cons_of_mem a hc))]

lemma map_eq_self_of {l : List Char} {f : Char → Char}
    (h : ∀ c ∈ l, f c = c) : l.map f = l := by
  induction l with
  | nil => rfl
  | cons a t ih =>
    rw [List.map_cons, h a (List.mem_cons_self a t),
      ih (fun c hc => h c (List.mem_cons_of_mem a hc))]

/-! ### Normalizer theorems -/

lemma normalize_eq_self {y : String}
    (hall : ∀ c ∈ y.data,
      (97 ≤ c.toNat ∧ c.toNat ≤ 122) ∨ (48 ≤ c.toNat ∧ c.toNat ≤ 57)) :
    generate_api_property_name y = y := by
  rw [generate_api_property_name]
  rw [filter_eq_self_of (fun c hc => by
    simp only [isKeptChar, decide_eq_true_eq]
    rcases hall c hc with h | h
    · omega
    · omega)]
  rw [pyStripChars_eq_self (fun c hc => by
    simp only [pyIsSpace, decide_eq_false_iff_not]
    rcases hall c hc with h | h
    · omega
    · omega)]
  rw [map_eq_self_of (fun c hc => by
    rcases hall c hc with h | h
    · rw [lowerChar_eq_self (by omega), replaceSpaceChar_eq_self (by omega)]
    · rw [lowerChar_eq_self (by omega), replaceSpaceChar_eq_self (by omega)])]

/-- C7: the normalizer strips characters outside letters/digits/space, trims,
lowercases and replaces spaces with underscores; in particular
`normalize("Lead Source!! 2024") = "lead_source_2024"`, `normalize("") = ""`,
and every output character is in `[a-z0-9_]`. -/
theorem C7_normalizer_contract :
    generate_api_property_name "Lead Source!! 2024" = "lead_source_2024" ∧
    generate_api_property_name "" = "" ∧
    (∀ (s : String) (c : Char), c ∈ (generate_api_property_name s).data →
      (97 ≤ c.toNat ∧ c.toNat ≤ 122) ∨ (48 ≤ c.toNat ∧ c.toNat ≤ 57) ∨ c = '_') := by
  refine ⟨by decide, rfl, ?_⟩
  intro s c hc
  have h := norm_char_mem hc
  simp only [isOutChar, decide_eq_true_eq] at h
  rcases h with h | h | h
  · exact Or.inl h
  · exact Or.inr (Or.inl h)
  · refine Or.inr (Or.inr (char_eq_of_toNat_eq ?_))
    have : Char.toNat '_' = 95 := by decide
    omega

/-- Witness for C7: the third conjunct applied to a concrete output character. -/
theorem C7_normalizer_contract_witness :
    (97 ≤ 'l'.toNat ∧ 'l'.toNat ≤ 122) ∨ (48 ≤ 'l'.toNat ∧ 'l'.toNat ≤ 57) ∨
      'l' = '_' :=
  C7_normalizer_contract.2.2 "Lead Source!! 2024" 'l' (by decide)

/-- C2 fails on the code: the normalizer is not idempotent, because the
underscores introduced for spaces are stripped by the second pass. -/
theorem C2_counterexample :
    generate_api_property_name "a b" = "a_b" ∧
    generate_api_property_name (generate_api_property_name "a b") = "ab" ∧
    generate_api_property_name (generate_api_property_name "a b") ≠
      generate_api_property_name "a b" := by
  refine ⟨by decide, by decide, by decide⟩

/-- C2 (amended): the normalizer is idempotent on every input whose normalized
form contains no underscore; a second application only deletes underscores. -/
theorem C2_amended_idempotent (s : String)
    (h : '_' ∉ (generate_api_property_name s).data) :
    generate_api_property_name (generate_api_property_name s) =
      generate_api_property_name s := by
  apply normalize_eq_self
  intro c hc
  have h1 := norm_char_mem hc
  simp only [isOutChar, decide_eq_true_eq] at h1
  rcases h1 with h1 | h1 | h1
  · exact Or.inl h1
  · exact Or.inr h1
  · have hc95 : c = '_' := by
      apply char_eq_of_toNat_eq
      have : Char.toNat '_' = 95 := by decide
      omega
    exact absurd (hc95 ▸ hc) h

/-- Witness for the amended C2 at a concrete underscore-free input. -/
theorem C2_amended_idempotent_witness :
    generate_api_property_name (generate_api_property_name "Lead") =
      generate_api_property_name "Lead" :=
  C2_amended_idempotent "Lead" (by decide)

/-! ### Per-row characterization lemmas -/

lemma rowStep_parse_error {api : RemoteApi σ} {remote : σ} {gc : List (String × Bool)}
    {row : List (String × String)} {e : PyError} (hp : parseRow row = .error e) :
    rowStep api remote gc row = .error e := by
  simp [rowStep, hp]

lemma rowStep_empty_slug {api : RemoteApi σ} {remote : σ} {gc : List (String × Bool)}
    {row : List (String × String)} {p : ParsedRow}
    (hp : parseRow row = .ok p) (hs : slugOf p.objectTypeRaw = "") :
    rowStep api remote gc row = .ok (remote, gc, p.originalName, .errored) := by
  simp [rowStep, hp, hs]

lemma rowStep_cached_false {api : RemoteApi σ} {remote : σ} {gc : List (String × Bool)}
    {row : List (String × String)} {p : ParsedRow}
    (hp : parseRow row = .ok p) (hs : slugOf p.objectTypeRaw ≠ "")
    (hgc : gc.lookup (slugOf p.objectTypeRaw) = some false) :
    rowStep api remote gc row = .ok (remote, gc, p.originalName, .errored) := by
  simp [rowStep, hp, hs, hgc]

lemma rowStep_uncached_false {api : RemoteApi σ} {remote r₂ : σ}
    {gc : List (String × Bool)} {row : List (String × String)} {p : ParsedRow}
    (hp : parseRow row = .ok p) (hs : slugOf p.objectTypeRaw ≠ "")
    (hgc : gc.lookup (slugOf p.objectTypeRaw) = none)
    (he : ensure_property_group api remote (slugOf p.objectTypeRaw)
      GROUP_ID GROUP_DISPLAY_NAME = (r₂, false)) :
    rowStep api remote gc row =
      .ok (r₂, (slugOf p.objectTypeRaw, false) :: gc, p.originalName, .errored) := by
  simp [rowStep, hp, hs, hgc, he]

lemma rowStep_uncached_true {api : RemoteApi σ} {remote r₂ : σ}
    {gc : List (String × Bool)} {row : List (String × String)} {p : ParsedRow}
    (hp : parseRow row = .ok p) (hs : slugOf p.objectTypeRaw ≠ "")
    (hgc : gc.lookup (slugOf p.objectTypeRaw) = none)
    (he : ensure_property_group api remote (slugOf p.objectTypeRaw)
      GROUP_ID GROUP_DISPLAY_NAME = (r₂, true)) :
    rowStep api remote gc row =
      rowStep api r₂ ((slugOf p.objectTypeRaw, true) :: gc) row := by
  simp [rowStep, hp, hs, hgc, he]

lemma rowStep_unknown_type {api : RemoteApi σ} {remote : σ} {gc : List (String × Bool)}
    {row : List (String × String)} {p : ParsedRow}
    (hp : parseRow row = .ok p) (hs : slugOf p.objectTypeRaw ≠ "")
    (hgc : gc.lookup (slugOf p.objectTypeRaw) = some true)
    (hm : TYPE_MAPPING p.rawType = none) :
    rowStep api remote gc row = .ok (remote, gc, p.originalName, .errored) := by
  simp [rowStep, hp, hs, hgc, hm]

lemma rowStep_exists_throws {api : RemoteApi σ} {remote r₁ : σ}
    {gc : List (String × Bool)} {row : List (String × String)} {p : ParsedRow}
    {m : TypeMapping} {msg : String}
    (hp : parseRow row = .ok p) (hs : slugOf p.objectTypeRaw ≠ "")
    (hgc : gc.lookup (slugOf p.objectTypeRaw) = some true)
    (hm : TYPE_MAPPING p.rawType = some m)
    (hg : api.getProp remote (slugOf p.objectTypeRaw)
      (generate_api_property_name p.originalName) = (r₁, .error msg)) :
    rowStep api remote gc row = .error (.transport msg) := by
  simp [rowStep, hp, hs, hgc, hm, property_exists, hg]

lemma rowStep_exists_ambiguous {api : RemoteApi σ} {remote r₁ : σ}
    {gc : List (String × Bool)} {row : List (String × String)} {p : ParsedRow}
    {m : TypeMapping} {resp : HttpResponse}
    (hp : parseRow row = .ok p) (hs : slugOf p.objectTypeRaw ≠ "")
    (hgc : gc.lookup (slugOf p.objectTypeRaw) = some true)
    (hm : TYPE_MAPPING p.rawType = some m)
    (hg : api.getProp remote (slugOf p.objectTypeRaw)
      (generate_api_property_name p.originalName) = (r₁, .ok resp))
    (h200 : resp.status ≠ 200) (h404 : resp.status ≠ 404) :
    rowStep api remote gc row = .ok (r₁, gc, p.originalName, .errored) := by
  simp [rowStep, hp, hs, hgc, hm, property_exists, hg, h200, h404]

lemma rowStep_exists_true {api : RemoteApi σ} {remote r₁ : σ}
    {gc : List (String × Bool)} {row : List (String × String)} {p : ParsedRow}
    {m : TypeMapping} {resp : HttpResponse}
    (hp : parseRow row = .ok p) (hs : slugOf p.objectTypeRaw ≠ "")
    (hgc : gc.lookup (slugOf p.objectTypeRaw) = some true)
    (hm : TYPE_MAPPING p.rawType = some m)
    (hg : api.getProp remote (slugOf p.objectTypeRaw)
      (generate_api_property_name p.originalName) = (r₁, .ok resp))
    (h200 : resp.status = 200) :
    rowStep api remote gc row = .ok (r₁, gc, p.originalName, .skipped) := by
  simp [rowStep, hp, hs, hgc, hm, property_exists, hg, h200]

lemma rowStep_post_throws {api : RemoteApi σ} {remote r₁ r₂ : σ}
    {gc : List (String × Bool)} {row : List (String × String)} {p : ParsedRow}
    {m : TypeMapping} {resp : HttpResponse} {msg : String}
    (hp : parseRow row = .ok p) (hs : slugOf p.objectTypeRaw ≠ "")
    (hgc : gc.lookup (slugOf p.objectTypeRaw) = some true)
    (hm : TYPE_MAPPING p.rawType = some m)
    (hg : api.getProp remote (slugOf p.objectTypeRaw)
      (generate_api_property_name p.originalName) = (r₁, .ok resp))
    (h404 : resp.status = 404)
    (hc : api.postProp r₁ (slugOf p.objectTypeRaw) (build_payload p m) =
      (r₂, .error msg)) :
    rowStep api remote gc row = .error (.transport msg) := by
  simp [rowStep, hp, hs, hgc, hm, property_exists, hg, h404, create_property, hc]

lemma rowStep_created {api : RemoteApi σ} {remote r₁ r₂ : σ}
    {gc : List (String × Bool)} {row : List (String × String)} {p : ParsedRow}
    {m : TypeMapping} {resp resp₂ : HttpResponse}
    (hp : parseRow row = .ok p) (hs : slugOf p.objectTypeRaw ≠ "")
    (hgc : gc.lookup (slugOf p.objectTypeRaw) = some true)
    (hm : TYPE_MAPPING p.rawType = some m)
    (hg : api.getProp remote (slugOf p.objectTypeRaw)
      (generate_api_property_name p.originalName) = (r₁, .ok resp))
    (h404 : resp.status = 404)
    (hc : api.postProp r₁ (slugOf p.objectTypeRaw) (build_payload p m) =
      (r₂, .ok resp₂))
    (hst : resp₂.status = 200 ∨ resp₂.status = 201) :
    rowStep api remote gc row = .ok (r₂, gc, p.originalName, .created) := by
  simp only [rowStep, hp, hs, hgc, hm, property_exists, hg, h404,
    create_property]
  simp [hc, hst]

lemma rowStep_dup_label {api : RemoteApi σ} {remote r₁ r₂ : σ}
    {gc : List (String × Bool)} {row : List (String × String)} {p : ParsedRow}
    {m : TypeMapping} {resp resp₂ : HttpResponse}
    (hp : parseRow row = .ok p) (hs : slugOf p.objectTypeRaw ≠ "")
    (hgc : gc.lookup (slugOf p.objectTypeRaw) = some true)
    (hm : TYPE_MAPPING p.rawType = some m)
    (hg : api.getProp remote (slugOf p.objectTypeRaw)
      (generate_api_property_name p.originalName) = (r₁, .ok resp))
    (h404 : resp.status = 404)
    (hc : api.postProp r₁ (slugOf p.objectTypeRaw) (build_payload p m) =
      (r₂, .ok resp₂))
    (hst : ¬(resp₂.status = 200 ∨ resp₂.status = 201))
    (hsub : resp₂.subCategory = some NON_UNIQUE_LABEL) :
    rowStep api remote gc row = .ok (r₂, gc, p.originalName, .skipped) := by
  simp [rowStep, hp, hs, hgc, hm, property_exists, hg, h404,
    create_property, hc, hst, hsub]

lemma rowStep_create_failed {api : RemoteApi σ} {remote r₁ r₂ : σ}
    {gc : List (String × Bool)} {row : List (String × String)} {p : ParsedRow}
    {m : TypeMapping} {resp resp₂ : HttpResponse}
    (hp : parseRow row = .ok p) (hs : slugOf p.objectTypeRaw ≠ "")
    (hgc : gc.lookup (slugOf p.objectTypeRaw) = some true)
    (hm : TYPE_MAPPING p.rawType = some m)
    (hg : api.getProp remote (slugOf p.objectTypeRaw)
      (generate_api_property_name p.originalName) = (r₁, .ok resp))
    (h404 : resp.status = 404)
    (hc : api.postProp r₁ (slugOf p.objectTypeRaw) (build_payload p m) =
      (r₂, .ok resp₂))
    (hst : ¬(resp₂.status = 200 ∨ resp₂.status = 201))
    (hsub : resp₂.subCategory ≠ some NON_UNIQUE_LABEL) :
    rowStep api remote gc row = .ok (r₂, gc, p.originalName, .errored) := by
  simp [rowStep, hp, hs, hgc, hm, property_exists, hg, h404,
    create_property, hc, hst, hsub]

/-! ### Run-level stepping lemmas -/

lemma processRows_cons_error {api : RemoteApi σ} {remote : σ}
    {gc : List (String × Bool)} {c k e : List String}
    {row : List (String × String)} {rest : List (List (String × String))}
    {err : PyError} (h : rowStep api remote gc row = .error err) :
    processRows api remote gc c k e (row :: rest) = .error err := by
  simp [processRows, h]

lemma processRows_cons_created {api : RemoteApi σ} {remote r₁ : σ}
    {gc gc₁ : List (String × Bool)} {c k e : List String} {name : String}
    {row : List (String × String)} {rest : List (List (String × String))}
    (h : rowStep api remote gc row = .ok (r₁, gc₁, name, .created)) :
    processRows api remote gc c k e (row :: rest) =
      processRows api r₁ gc₁ (c ++ [name]) k e rest := by
  simp [processRows, h]

lemma processRows_cons_skipped {api : RemoteApi σ} {remote r₁ : σ}
    {gc gc₁ : List (String × Bool)} {c k e : List String} {name : String}
    {row : List (String × String)} {rest : List (List (String × String))}
    (h : rowStep api remote gc row = .ok (r₁, gc₁, name, .skipped)) :
    processRows api remote gc c k e (row :: rest) =
      processRows api r₁ gc₁ c (k ++ [name]) e rest := by
  simp [processRows, h]

lemma processRows_cons_errored {api : RemoteApi σ} {remote r₁ : σ}
    {gc gc₁ : List (String × Bool)} {c k e : List String} {name : String}
    {row : List (String × String)} {rest : List (List (String × String))}
    (h : rowStep api remote gc row = .ok (r₁, gc₁, name, .errored)) :
    processRows api remote gc c k e (row :: rest) =
      processRows api r₁ gc₁ c k (e ++ [name]) rest := by
  simp [processRows, h]

lemma processRows_nil {api : RemoteApi σ} {remote : σ}
    {gc : List (String × Bool)} {c k e : List String} :
    processRows api remote gc c k e [] = .ok (remote, ⟨c, k, e⟩) := rfl

lemma rowTrace_cons_ok {api : RemoteApi σ} {remote r₁ : σ}
    {gc gc₁ : List (String × Bool)} {name : String} {oc : RowOutcome}
    {row : List (String × String)} {rest : List (List (String × String))}
    {tr : List (String × RowOutcome)}
    (h : rowStep api remote gc row = .ok (r₁, gc₁, name, oc))
    (ht : rowTrace api r₁ gc₁ rest = .ok tr) :
    rowTrace api remote gc (row :: rest) = .ok ((name, oc) :: tr) := by
  simp [rowTrace, h, ht]

lemma rowStep_ok_name {api : RemoteApi σ} {remote : σ} {gc : List (String × Bool)}
    {row : List (String × String)}
    {out : σ × List (String × Bool) × String × RowOutcome}
    (h : rowStep api remote gc row = .ok out) :
    ∃ p, parseRow row = .ok p ∧ out.2.2.1 = p.originalName := by
  match hp : parseRow row with
  | .error e =>
    rw [rowStep_parse_error hp] at h
    exact absurd h (by simp)
  | .ok p =>
    refine ⟨p, rfl, ?_⟩
    simp only [rowStep, hp] at h
    repeat' split at h
    all_goals first
      | (cases h; rfl)
      | simp at h

lemma ofOutcome_cons_eq {name : String} {oc : RowOutcome}
    {tr : List (String × RowOutcome)} :
    ofOutcome oc ((name, oc) :: tr) = name :: ofOutcome oc tr := by
  simp [ofOutcome]

lemma ofOutcome_cons_ne {name : String} {oc oc₂ : RowOutcome}
    {tr : List (String × RowOutcome)} (h : oc₂ ≠ oc) :
    ofOutcome oc ((name, oc₂) :: tr) = ofOutcome oc tr := by
  simp [ofOutcome, h]

lemma ofOutcome_triple_length (tr : List (String × RowOutcome)) :
    (ofOutcome .created tr).length + (ofOutcome .skipped tr).length +
      (ofOutcome .errored tr).length = tr.length := by
  induction tr with
  | nil => rfl
  | cons a t ih =>
    obtain ⟨n, oc⟩ := a
    cases oc <;>
      simp only [ofOutcome, List.filter_cons, List.map_cons, decide_eq_true_eq,
        List.length_cons] at ih ⊢ <;>
      split <;> simp_all <;> omega

/-- A completed run is exactly described by its per-row trace: the three
accumulated lists are the trace's outcome-filtered name sequences. -/
lemma processRows_trace {api : RemoteApi σ}
    (rows : List (List (String × String))) :
    ∀ (remote : σ) (gc : List (String × Bool)) (c k e : List String)
      (r₁ : σ) (sum : RunSummary),
      processRows api remote gc c k e rows = .ok (r₁, sum) →
      ∃ tr, rowTrace api remote gc rows = .ok tr ∧
        sum.created = c ++ ofOutcome .created tr ∧
        sum.skipped = k ++ ofOutcome .skipped tr ∧
        sum.errors = e ++ ofOutcome .errored tr := by
  induction rows with
  | nil =>
    intro remote gc c k e r₁ sum h
    rw [processRows_nil] at h
    obtain ⟨h1, h2⟩ := Prod.mk.injEq .. ▸ (Except.ok.inj h)
    refine ⟨[], rfl, ?_, ?_, ?_⟩ <;> simp [← h2, ofOutcome]
  | cons row rest ih =>
    intro remote gc c k e r₁ sum h
    match hstep : rowStep api remote gc row with
    | .error err =>
      rw [processRows_cons_error hstep] at h
      exact absurd h (by simp)
    | .ok (r₂, gc₂, name, .created) =>
      rw [processRows_cons_created hstep] at h
      obtain ⟨tr, htr, h1, h2, h3⟩ := ih r₂ gc₂ (c ++ [name]) k e r₁ sum h
      refine ⟨(name, .created) :: tr, rowTrace_cons_ok hstep htr, ?_, ?_, ?_⟩
      · rw [h1, ofOutcome_cons_eq]; simp
      · rw [h2, ofOutcome_cons_ne (by simp)]
      · rw [h3, ofOutcome_cons_ne (by simp)]
    | .ok (r₂, gc₂, name, .skipped) =>
      rw [processRows_cons_skipped hstep] at h
      obtain ⟨tr, htr, h1, h2, h3⟩ := ih r₂ gc₂ c (k ++ [name]) e r₁ sum h
      refine ⟨(name, .skipped) :: tr, rowTrace_cons_ok hstep htr, ?_, ?_, ?_⟩
      · rw [h1, ofOutcome_cons_ne (by simp)]
      · rw [h2, ofOutcome_cons_eq]; simp
      · rw [h3, ofOutcome_cons_ne (by simp)]
    | .ok (r₂, gc₂, name, .errored) =>
      rw [processRows_cons_errored hstep] at h
      obtain ⟨tr, htr, h1, h2, h3⟩ := ih r₂ gc₂ c k (e ++ [name]) r₁ sum h
      refine ⟨(name, .errored) :: tr, rowTrace_cons_ok hstep htr, ?_, ?_, ?_⟩
      · rw [h1, ofOutcome_cons_ne (by simp)]
      · rw [h2, ofOutcome_cons_ne (by simp)]
      · rw [h3, ofOutcome_cons_eq]; simp

/-- Each trace entry carries its row's stripped original name, in order. -/
lemma rowTrace_names {api : RemoteApi σ}
    (rows : List (List (String × String))) :
    ∀ (remote : σ) (gc : List (String × Bool)) (tr : List (String × RowOutcome)),
      rowTrace api remote gc rows = .ok tr →
      namesOf rows = .ok (tr.map Prod.fst) ∧ tr.length = rows.length := by
  induction rows with
  | nil =>
    intro remote gc tr h
    obtain rfl := Except.ok.inj h.symm
    exact ⟨rfl, rfl⟩
  | cons row rest ih =>
    intro remote gc tr h
    match hstep : rowStep api remote gc row with
    | .error err =>
      simp only [rowTrace, hstep] at h
      exact absurd h (by simp)
    | .ok (r₂, gc₂, name, oc) =>
      simp only [rowTrace, hstep] at h
      match htr : rowTrace api r₂ gc₂ rest with
      | .error err =>
        simp only [htr] at h
        exact absurd h (by simp)
      | .ok tr₂ =>
        simp only [htr] at h
        obtain rfl := Except.ok.inj h.symm
        obtain ⟨ihn, ihl⟩ := ih r₂ gc₂ tr₂ htr
        obtain ⟨p, hp, hname⟩ := rowStep_ok_name hstep
        constructor
        · rw [namesOf, rowName, hp]
          simp only [Except.map, ihn]
          simp [← hname]
        · simp [ihl]

/-! ### Counting lemmas for group-ensure memoization -/

lemma countGetGroups_nil (u : String) : countGetGroups [] u = 0 := rfl

lemma countGetGroups_append (a b : List CallEvent) (u : String) :
    countGetGroups (a ++ b) u = countGetGroups a u + countGetGroups b u := by
  simp [countGetGroups, List.filter_append]

lemma countGetGroups_single_getGroups (t u : String) :
    countGetGroups [CallEvent.getGroups t] u = if u = t then 1 else 0 := by
  by_cases h : u = t
  · subst h; simp [countGetGroups]
  · simp [countGetGroups, h]
    intro h2
    exact absurd h2.symm h

lemma countGetGroups_getProp (t n u : String) :
    countGetGroups [CallEvent.getProp t n] u = 0 := by
  simp [countGetGroups]

lemma countGetGroups_postProp (t n u : String) :
    countGetGroups [CallEvent.postProp t n] u = 0 := by
  simp [countGetGroups]

lemma countGetGroups_postGroup (t u : String) :
    countGetGroups [CallEvent.postGroup t] u = 0 := by
  simp [countGetGroups]

/-- `ensure_property_group` over the counting wrapper: same underlying state
and boolean, and the trace grows by events whose group-listing count is one
for this slug and zero for every other. -/
lemma ensure_counting_spec (api : RemoteApi σ) (s : σ) (tr : List CallEvent)
    (t gid dn : String) :
    ∃ Δ, ensure_property_group (counting api) (s, tr) t gid dn =
        (((ensure_property_group api s t gid dn).1, tr ++ Δ),
          (ensure_property_group api s t gid dn).2) ∧
      ∀ u, countGetGroups Δ u = if u = t then 1 else 0 := by
  match hg : api.getGroups s t with
  | (s', .error msg) =>
    refine ⟨[.getGroups t], ?_, fun u => countGetGroups_single_getGroups t u⟩
    simp [ensure_property_group, counting, hg]
  | (s', .ok resp) =>
    by_cases h200 : resp.status = 200
    · by_cases hmem : gid ∈ resp.groupNames
      · refine ⟨[.getGroups t], ?_, fun u => countGetGroups_single_getGroups t u⟩
        simp [ensure_property_group, counting, hg, h200, hmem]
      · match hpg : api.postGroup s' t gid dn with
        | (s₂, .error msg) =>
          refine ⟨[.getGroups t, .postGroup t], ?_, ?_⟩
          · simp [ensure_property_group, counting, hg, h200, hmem, hpg]
          · intro u
            have : ([CallEvent.getGroups t, CallEvent.postGroup t] : List CallEvent) =
                [CallEvent.getGroups t] ++ [CallEvent.postGroup t] := rfl
            rw [this, countGetGroups_append, countGetGroups_single_getGroups,
              countGetGroups_postGroup]
            simp
        | (s₂, .ok resp₂) =>
          refine ⟨[.getGroups t, .postGroup t], ?_, ?_⟩
          · simp [ensure_property_group, counting, hg, h200, hmem, hpg]
          · intro u
            have : ([CallEvent.getGroups t, CallEvent.postGroup t] : List CallEvent) =
                [CallEvent.getGroups t] ++ [CallEvent.postGroup t] := rfl
            rw [this, countGetGroups_append, countGetGroups_single_getGroups,
              countGetGroups_postGroup]
            simp
    · refine ⟨[.getGroups t], ?_, fun u => countGetGroups_single_getGroups t u⟩
      simp [ensure_property_group, counting, hg, h200]
lemma rowStep_cached_gc {api : RemoteApi σ} {remote : σ} {gc : List (String × Bool)}
    {row : List (String × String)} {p : ParsedRow}
    {st₂ : σ} {gc₂ : List (String × Bool)} {name : String} {oc : RowOutcome}
    (hp : parseRow row = .ok p) (hs : slugOf p.objectTypeRaw ≠ "")
    (hgc : gc.lookup (slugOf p.objectTypeRaw) = some true)
    (h : rowStep api remote gc row = .ok (st₂, gc₂, name, oc)) : gc₂ = gc := by
  simp only [rowStep, hp, hs, hgc] at h
  repeat' split at h
  all_goals first
    | (simp only [Except.ok.injEq, Prod.mk.injEq] at h; exact h.2.1.symm)
    | simp at h

lemma rowStep_cached_trace (api : RemoteApi σ) {s : σ} {tr : List CallEvent}
    {gc : List (String × Bool)} {row : List (String × String)} {p : ParsedRow}
    {st₂ : σ × List CallEvent} {gc₂ : List (String × Bool)} {name : String}
    {oc : RowOutcome}
    (hp : parseRow row = .ok p) (hs : slugOf p.objectTypeRaw ≠ "")
    (hgc : gc.lookup (slugOf p.objectTypeRaw) = some true)
    (h : rowStep (counting api) (s, tr) gc row = .ok (st₂, gc₂, name, oc)) :
    ∃ Δ, st₂.2 = tr ++ Δ ∧ ∀ u, countGetGroups Δ u = 0 := by
  match hm : TYPE_MAPPING p.rawType with
  | none =>
    rw [rowStep_unknown_type hp hs hgc hm] at h
    simp only [Except.ok.injEq, Prod.mk.injEq] at h
    obtain ⟨h1, h2, h3, h4⟩ := h
    subst h1
    exact ⟨[], by simp, fun u => rfl⟩
  | some m =>
    set slug := slugOf p.objectTypeRaw with hslug
    set nm := generate_api_property_name p.originalName with hnm
    match hg : api.getProp s slug nm with
    | (s₁, .error msg) =>
      have hgp : (counting api).getProp (s, tr) slug nm =
          ((s₁, tr ++ [.getProp slug nm]), .error msg) := by
        simp [counting, hg]
      rw [rowStep_exists_throws hp hs hgc hm hgp] at h
      exact absurd h (by simp)
    | (s₁, .ok resp) =>
      have hgp : (counting api).getProp (s, tr) slug nm =
          ((s₁, tr ++ [.getProp slug nm]), .ok resp) := by
        simp [counting, hg]
      by_cases h200 : resp.status = 200
      · rw [rowStep_exists_true hp hs hgc hm hgp h200] at h
        simp only [Except.ok.injEq, Prod.mk.injEq] at h
        obtain ⟨h1, h2, h3, h4⟩ := h
        subst h1
        exact ⟨[.getProp slug nm], rfl, fun u => countGetGroups_getProp slug nm u⟩
      · by_cases h404 : resp.status = 404
        · match hq : api.postProp s₁ slug (build_payload p m) with
          | (s₂, .error msg) =>
            have hqp : (counting api).postProp (s₁, tr ++ [.getProp slug nm]) slug
                (build_payload p m) =
                ((s₂, (tr ++ [.getProp slug nm]) ++
                  [.postProp slug (build_payload p m).name]), .error msg) := by
              simp [counting, hq]
            rw [rowStep_post_throws hp hs hgc hm hgp h404 hqp] at h
            exact absurd h (by simp)
          | (s₂, .ok resp₂) =>
            have hqp : (counting api).postProp (s₁, tr ++ [.getProp slug nm]) slug
                (build_payload p m) =
                ((s₂, (tr ++ [.getProp slug nm]) ++
                  [.postProp slug (build_payload p m).name]), .ok resp₂) := by
              simp [counting, hq]
            have hΔ : ∀ u, countGetGroups
                ([CallEvent.getProp slug nm] ++
                  [CallEvent.postProp slug (build_payload p m).name]) u = 0 := by
              intro u
              rw [countGetGroups_append, countGetGroups_getProp,
                countGetGroups_postProp]
            by_cases hst : resp₂.status = 200 ∨ resp₂.status = 201
            · rw [rowStep_created hp hs hgc hm hgp h404 hqp hst] at h
              simp only [Except.ok.injEq, Prod.mk.injEq] at h
              obtain ⟨h1, h2, h3, h4⟩ := h
              subst h1
              exact ⟨_, by rw [List.append_assoc], hΔ⟩
            · by_cases hsub : resp₂.subCategory = some NON_UNIQUE_LABEL
              · rw [rowStep_dup_label hp hs hgc hm hgp h404 hqp hst hsub] at h
                simp only [Except.ok.injEq, Prod.mk.injEq] at h
                obtain ⟨h1, h2, h3, h4⟩ := h
                subst h1
                exact ⟨_, by rw [List.append_assoc], hΔ⟩
              · rw [rowStep_create_failed hp hs hgc hm hgp h404 hqp hst hsub] at h
                simp only [Except.ok.injEq, Prod.mk.injEq] at h
                obtain ⟨h1, h2, h3, h4⟩ := h
                subst h1
                exact ⟨_, by rw [List.append_assoc], hΔ⟩
        · rw [rowStep_exists_ambiguous hp hs hgc hm hgp h200 h404] at h
          simp only [Except.ok.injEq, Prod.mk.injEq] at h
          obtain ⟨h1, h2, h3, h4⟩ := h
          subst h1
          exact ⟨[.getProp slug nm], rfl, fun u => countGetGroups_getProp slug nm u⟩

lemma rowStep_counting_trace (api : RemoteApi σ) {s : σ} {tr : List CallEvent}
    {gc : List (String × Bool)} {row : List (String × String)}
    {st₂ : σ × List CallEvent} {gc₂ : List (String × Bool)} {name : String}
    {oc : RowOutcome}
    (h : rowStep (counting api) (s, tr) gc row = .ok (st₂, gc₂, name, oc)) :
    ∃ Δ, st₂.2 = tr ++ Δ ∧
      (∀ u, countGetGroups Δ u ≤ 1) ∧
      (∀ u, 1 ≤ countGetGroups Δ u → gc.lookup u = none ∧ gc₂.lookup u ≠ none) ∧
      (∀ u, gc.lookup u ≠ none → gc₂.lookup u ≠ none) := by
  match hp : parseRow row with
  | .error e =>
    rw [rowStep_parse_error hp] at h
    exact absurd h (by simp)
  | .ok p =>
    by_cases hs : slugOf p.objectTypeRaw = ""
    · rw [rowStep_empty_slug hp hs] at h
      simp only [Except.ok.injEq, Prod.mk.injEq] at h
      obtain ⟨h1, h2, h3, h4⟩ := h
      subst h1; subst h2
      exact ⟨[], by simp, fun u => by simp [countGetGroups_nil],
        fun u hu => by simp [countGetGroups_nil] at hu, fun u hu => hu⟩
    · match hgc : gc.lookup (slugOf p.objectTypeRaw) with
      | some true =>
        obtain ⟨Δ, hst, h0⟩ := rowStep_cached_trace api hp hs hgc h
        have hg2 := rowStep_cached_gc hp hs hgc h
        subst hg2
        exact ⟨Δ, hst, fun u => by rw [h0]; omega,
          fun u hu => by rw [h0] at hu; omega, fun u hu => hu⟩
      | some false =>
        rw [rowStep_cached_false hp hs hgc] at h
        simp only [Except.ok.injEq, Prod.mk.injEq] at h
        obtain ⟨h1, h2, h3, h4⟩ := h
        subst h1; subst h2
        exact ⟨[], by simp, fun u => by simp [countGetGroups_nil],
          fun u hu => by simp [countGetGroups_nil] at hu, fun u hu => hu⟩
      | none =>
        obtain ⟨Δ₀, hens, hcnt⟩ :=
          ensure_counting_spec api s tr (slugOf p.objectTypeRaw)
            GROUP_ID GROUP_DISPLAY_NAME
        match hE : ensure_property_group api s (slugOf p.objectTypeRaw)
            GROUP_ID GROUP_DISPLAY_NAME with
        | (r₂, false) =>
          rw [hE] at hens
          rw [rowStep_uncached_false hp hs hgc hens] at h
          simp only [Except.ok.injEq, Prod.mk.injEq] at h
          obtain ⟨h1, h2, h3, h4⟩ := h
          subst h1; subst h2
          refine ⟨Δ₀, rfl, fun u => by rw [hcnt]; split <;> omega, ?_, ?_⟩
          · intro u hu
            rw [hcnt] at hu
            by_cases ht : u = slugOf p.objectTypeRaw
            · subst ht
              refine ⟨hgc, ?_⟩
              simp [List.lookup]
            · rw [if_neg ht] at hu; omega
          · intro u hu
            by_cases ht : u = slugOf p.objectTypeRaw
            · subst ht; simp [List.lookup]
            · have hbe : (u == slugOf p.objectTypeRaw) = false :=
                beq_eq_false_iff_ne.mpr ht
              simp only [List.lookup, hbe]
              exact hu
        | (r₂, true) =>
          rw [hE] at hens
          rw [rowStep_uncached_true hp hs hgc hens] at h
          have hlk : ((slugOf p.objectTypeRaw, true) :: gc).lookup
              (slugOf p.objectTypeRaw) = some true := by simp [List.lookup]
          obtain ⟨Δ₁, hst, h0⟩ := rowStep_cached_trace api hp hs hlk h
          have hg2 := rowStep_cached_gc hp hs hlk h
          subst hg2
          refine ⟨Δ₀ ++ Δ₁, by rw [hst, List.append_assoc], ?_, ?_, ?_⟩
          · intro u
            rw [countGetGroups_append, hcnt, h0]
            split <;> omega
          · intro u hu
            rw [countGetGroups_append, hcnt, h0] at hu
            by_cases ht : u = slugOf p.objectTypeRaw
            · subst ht
              refine ⟨hgc, ?_⟩
              simp [List.lookup]
            · rw [if_neg ht] at hu; omega
          · intro u hu
            by_cases ht : u = slugOf p.objectTypeRaw
            · subst ht; simp [List.lookup]
            · have hbe : (u == slugOf p.objectTypeRaw) = false :=
                beq_eq_false_iff_ne.mpr ht
              simp only [List.lookup, hbe]
              exact hu
/-- Along a completed counted run whose starting trace and cache satisfy the
memoization invariant, the final trace lists each slug's groups at most once. -/
lemma processRows_count (api : RemoteApi σ) (rows : List (List (String × String))) :
    ∀ (s : σ) (tr : List CallEvent) (gc : List (String × Bool))
      (c k e : List String) (s₁ : σ) (tr₁ : List CallEvent) (sum : RunSummary),
      processRows (counting api) (s, tr) gc c k e rows = .ok ((s₁, tr₁), sum) →
      (∀ u, countGetGroups tr u ≤ 1 ∧
        (gc.lookup u = none → countGetGroups tr u = 0)) →
      ∀ u, countGetGroups tr₁ u ≤ 1 := by
  induction rows with
  | nil =>
    intro s tr gc c k e s₁ tr₁ sum h hQ u
    rw [processRows_nil] at h
    simp only [Except.ok.injEq, Prod.mk.injEq] at h
    obtain ⟨⟨hs₁, htr⟩, hsum⟩ := h
    subst htr
    exact (hQ u).1
  | cons row rest ih =>
    intro s tr gc c k e s₁ tr₁ sum h hQ
    match hstep : rowStep (counting api) (s, tr) gc row with
    | .error err =>
      rw [processRows_cons_error hstep] at h
      exact absurd h (by simp)
    | .ok (st₂, gc₂, name, oc) =>
      obtain ⟨Δ, hst, hle, hone, hmono⟩ := rowStep_counting_trace api hstep
      have hQ₂ : ∀ u, countGetGroups (tr ++ Δ) u ≤ 1 ∧
          (gc₂.lookup u = none → countGetGroups (tr ++ Δ) u = 0) := by
        intro u
        rw [countGetGroups_append]
        rcases Nat.eq_zero_or_pos (countGetGroups Δ u) with h0 | h1
        · constructor
          · have := (hQ u).1; omega
          · intro hnone
            have hg : gc.lookup u = none := by
              by_contra hne
              exact (hmono u hne) hnone
            have := (hQ u).2 hg
            omega
        · obtain ⟨hnone, hne⟩ := hone u h1
          have h2 := (hQ u).2 hnone
          have h3 := hle u
          exact ⟨by omega, fun hco => absurd hco hne⟩
      obtain ⟨s₂, tr₂⟩ := st₂
      simp only at hst
      subst hst
      cases oc
      · rw [processRows_cons_created hstep] at h
        exact ih s₂ (tr ++ Δ) gc₂ _ _ _ s₁ tr₁ sum h hQ₂
      · rw [processRows_cons_skipped hstep] at h
        exact ih s₂ (tr ++ Δ) gc₂ _ _ _ s₁ tr₁ sum h hQ₂
      · rw [processRows_cons_errored hstep] at h
        exact ih s₂ (tr ++ Δ) gc₂ _ _ _ s₁ tr₁ sum h hQ₂

lemma rowStep_gc_cases {api : RemoteApi σ} {remote : σ} {gc : List (String × Bool)}
    {row : List (String × String)} {st₂ : σ} {gc₂ : List (String × Bool)}
    {name : String} {oc : RowOutcome}
    (h : rowStep api remote gc row = .ok (st₂, gc₂, name, oc)) :
    gc₂ = gc ∨ ∃ p b r₂, parseRow row = .ok p ∧
      gc.lookup (slugOf p.objectTypeRaw) = none ∧
      gc₂ = (slugOf p.objectTypeRaw, b) :: gc ∧
      ensure_property_group api remote (slugOf p.objectTypeRaw)
        GROUP_ID GROUP_DISPLAY_NAME = (r₂, b) := by
  match hp : parseRow row with
  | .error e =>
    rw [rowStep_parse_error hp] at h
    exact absurd h (by simp)
  | .ok p =>
    by_cases hs : slugOf p.objectTypeRaw = ""
    · rw [rowStep_empty_slug hp hs] at h
      left
      simp only [Except.ok.injEq, Prod.mk.injEq] at h
      exact h.2.1.symm
    · match hgc : gc.lookup (slugOf p.objectTypeRaw) with
      | some true =>
        exact Or.inl (rowStep_cached_gc hp hs hgc h)
      | some false =>
        rw [rowStep_cached_false hp hs hgc] at h
        left
        simp only [Except.ok.injEq, Prod.mk.injEq] at h
        exact h.2.1.symm
      | none =>
        match hE : ensure_property_group api remote (slugOf p.objectTypeRaw)
            GROUP_ID GROUP_DISPLAY_NAME with
        | (r₂, false) =>
          rw [rowStep_uncached_false hp hs hgc hE] at h
          right
          refine ⟨p, false, r₂, rfl, hgc, ?_, hE⟩
          simp only [Except.ok.injEq, Prod.mk.injEq] at h
          exact h.2.1.symm
        | (r₂, true) =>
          rw [rowStep_uncached_true hp hs hgc hE] at h
          have hlk : ((slugOf p.objectTypeRaw, true) :: gc).lookup
              (slugOf p.objectTypeRaw) = some true := by simp [List.lookup]
          exact Or.inr ⟨p, true, r₂, rfl, hgc, rowStep_cached_gc hp hs hlk h, hE⟩
/-- If the group-ensure of slug `t` fails at every remote state, then every
row of a completed run whose object type resolves to `t` lands in the errors
list (the cache holds `false` from the first attempt on). -/
lemma processRows_ensure_false {api : RemoteApi σ} {t : String}
    (hall : ∀ st : σ,
      (ensure_property_group api st t GROUP_ID GROUP_DISPLAY_NAME).2 = false)
    (rows : List (List (String × String))) :
    ∀ (remote : σ) (gc : List (String × Bool)) (c k e : List String)
      (r₁ : σ) (sum : RunSummary),
      processRows api remote gc c k e rows = .ok (r₁, sum) →
      (gc.lookup t = none ∨ gc.lookup t = some false) →
      ∀ row ∈ rows, ∀ p, parseRow row = .ok p → slugOf p.objectTypeRaw = t →
        p.originalName ∈ sum.errors := by
  induction rows with
  | nil =>
    intro remote gc c k e r₁ sum h hinv row hrow
    exact absurd hrow (List.not_mem_nil row)
  | cons row rest ih =>
    intro remote gc c k e r₁ sum h hinv row' hrow' p hp hslug
    match hstep : rowStep api remote gc row with
    | .error err =>
      rw [processRows_cons_error hstep] at h
      exact absurd h (by simp)
    | .ok (st₂, gc₂, name, oc) =>
      have hinv₂ : gc₂.lookup t = none ∨ gc₂.lookup t = some false := by
        rcases rowStep_gc_cases hstep with hg | ⟨q, b, r₂, hq, hnone, hcons, hens⟩
        · rw [hg]; exact hinv
        · rw [hcons]
          by_cases hts : t = slugOf q.objectTypeRaw
          · right
            have hb : b = false := by
              have h2 := congrArg Prod.snd hens
              simp only at h2
              rw [← h2, ← hts]
              exact hall remote
            subst hb
            rw [hts]
            simp [List.lookup]
          · have hbe : (t == slugOf q.objectTypeRaw) = false :=
              beq_eq_false_iff_ne.mpr hts
            simp only [List.lookup, hbe]
            exact hinv
      rcases List.mem_cons.mp hrow' with heq | hmem
      · subst heq
        by_cases hs : slugOf p.objectTypeRaw = ""
        · have hcomb := (rowStep_empty_slug hp hs).symm.trans hstep
          simp only [Except.ok.injEq, Prod.mk.injEq] at hcomb
          obtain ⟨h1, h2, h3, h4⟩ := hcomb
          subst h3; subst h4
          rw [processRows_cons_errored hstep] at h
          obtain ⟨tr, htr, hc, hk, he⟩ :=
            processRows_trace rest st₂ gc₂ c k (e ++ [p.originalName]) r₁ sum h
          rw [he]
          simp
        · rcases hinv with hnone | hfalse
          · have hgc : gc.lookup (slugOf p.objectTypeRaw) = none := by
              rw [hslug]; exact hnone
            match hE : ensure_property_group api remote (slugOf p.objectTypeRaw)
                GROUP_ID GROUP_DISPLAY_NAME with
            | (r₂, b) =>
              have hb : b = false := by
                have h2 := congrArg Prod.snd hE
                simp only at h2
                rw [← h2, hslug]
                exact hall remote
              subst hb
              have hcomb := (rowStep_uncached_false hp hs hgc hE).symm.trans hstep
              simp only [Except.ok.injEq, Prod.mk.injEq] at hcomb
              obtain ⟨h1, h2, h3, h4⟩ := hcomb
              subst h3; subst h4
              rw [processRows_cons_errored hstep] at h
              obtain ⟨tr, htr, hc, hk, he⟩ :=
                processRows_trace rest st₂ gc₂ c k (e ++ [p.originalName]) r₁ sum h
              rw [he]
              simp
          · have hgc : gc.lookup (slugOf p.objectTypeRaw) = some false := by
              rw [hslug]; exact hfalse
            have hcomb := (rowStep_cached_false hp hs hgc).symm.trans hstep
            simp only [Except.ok.injEq, Prod.mk.injEq] at hcomb
            obtain ⟨h1, h2, h3, h4⟩ := hcomb
            subst h3; subst h4
            rw [processRows_cons_errored hstep] at h
            obtain ⟨tr, htr, hc, hk, he⟩ :=
              processRows_trace rest st₂ gc₂ c k (e ++ [p.originalName]) r₁ sum h
            rw [he]
            simp
      · cases oc
        · rw [processRows_cons_created hstep] at h
          exact ih st₂ gc₂ _ _ _ r₁ sum h hinv₂ row' hmem p hp hslug
        · rw [processRows_cons_skipped hstep] at h
          exact ih st₂ gc₂ _ _ _ r₁ sum h hinv₂ row' hmem p hp hslug
        · rw [processRows_cons_errored hstep] at h
          exact ih st₂ gc₂ _ _ _ r₁ sum h hinv₂ row' hmem p hp hslug
/-- C5: for every run, the group-ensure operation (`getGroups` listing) is
invoked at most once per object-type slug — its boolean result is cached in
`group_checked` — and when ensuring a slug fails, every row resolving to that
slug is appended to the errors list. -/
theorem C5_group_memoization {σ : Type} (api : RemoteApi σ) (s : σ)
    (rows : List (List (String × String))) (s₁ : σ) (tr : List CallEvent)
    (sum : RunSummary) (t : String)
    (h : process_csv (counting api) (s, []) rows = .ok ((s₁, tr), sum)) :
    countGetGroups tr t ≤ 1 ∧
    ((∀ st : σ,
        (ensure_property_group api st t GROUP_ID GROUP_DISPLAY_NAME).2 = false) →
      ∀ row ∈ rows, ∀ p, parseRow row = .ok p → slugOf p.objectTypeRaw = t →
        p.originalName ∈ sum.errors) := by
  constructor
  · exact processRows_count api rows s [] [] [] [] [] s₁ tr sum h
      (fun u => ⟨by simp [countGetGroups_nil], fun _ => rfl⟩) t
  · intro hall
    have hall₂ : ∀ st : σ × List CallEvent,
        (ensure_property_group (counting api) st t GROUP_ID
          GROUP_DISPLAY_NAME).2 = false := by
      intro st
      obtain ⟨st₁, tr₁⟩ := st
      obtain ⟨Δ, hspec, _⟩ :=
        ensure_counting_spec api st₁ tr₁ t GROUP_ID GROUP_DISPLAY_NAME
      rw [hspec]
      exact hall st₁
    exact processRows_ensure_false hall₂ rows (s, []) [] [] [] [] (s₁, tr) sum h
      (Or.inl rfl)

/-- Witness for C5: one concrete counted run against a remote whose
group-listing always fails. -/
theorem C5_group_memoization_witness :
    countGetGroups [CallEvent.getGroups "contacts"] "contacts" ≤ 1 ∧
    "VIP Status" ∈ (RunSummary.mk [] [] ["VIP Status"]).errors := by
  have h := C5_group_memoization groupFailApi () [sampleRow] ()
    [CallEvent.getGroups "contacts"] ⟨[], [], ["VIP Status"]⟩ "contacts" rfl
  exact ⟨h.1, h.2 (fun st => rfl) sampleRow (List.mem_singleton.mpr rfl)
    ⟨"VIP Status", "Single Checkbox", "", "Contact"⟩ rfl rfl⟩
/-- C4: for a row that reaches the existence check, the outcome is decided by
the remote responses exactly as specified — ambiguous status: errors; 200:
skipped; 404 then 200/201 creation: created; 404 then duplicate-label
failure: skipped; 404 then any other failure: errors — and in every case the
run continues with the remaining rows. -/
theorem C4_row_classification {σ : Type} {api : RemoteApi σ} {remote : σ}
    {gc : List (String × Bool)} {c k e : List String}
    {row : List (String × String)} {rest : List (List (String × String))}
    {p : ParsedRow} {m : TypeMapping}
    (hp : parseRow row = .ok p) (hs : slugOf p.objectTypeRaw ≠ "")
    (hgc : gc.lookup (slugOf p.objectTypeRaw) = some true)
    (hm : TYPE_MAPPING p.rawType = some m) :
    (∀ (r₁ : σ) (resp : HttpResponse),
      api.getProp remote (slugOf p.objectTypeRaw)
        (generate_api_property_name p.originalName) = (r₁, .ok resp) →
      resp.status ≠ 200 → resp.status ≠ 404 →
      processRows api remote gc c k e (row :: rest) =
        processRows api r₁ gc c k (e ++ [p.originalName]) rest) ∧
    (∀ (r₁ : σ) (resp : HttpResponse),
      api.getProp remote (slugOf p.objectTypeRaw)
        (generate_api_property_name p.originalName) = (r₁, .ok resp) →
      resp.status = 200 →
      processRows api remote gc c k e (row :: rest) =
        processRows api r₁ gc c (k ++ [p.originalName]) e rest) ∧
    (∀ (r₁ r₂ : σ) (resp resp₂ : HttpResponse),
      api.getProp remote (slugOf p.objectTypeRaw)
        (generate_api_property_name p.originalName) = (r₁, .ok resp) →
      resp.status = 404 →
      api.postProp r₁ (slugOf p.objectTypeRaw) (build_payload p m) =
        (r₂, .ok resp₂) →
      (resp₂.status = 200 ∨ resp₂.status = 201) →
      processRows api remote gc c k e (row :: rest) =
        processRows api r₂ gc (c ++ [p.originalName]) k e rest) ∧
    (∀ (r₁ r₂ : σ) (resp resp₂ : HttpResponse),
      api.getProp remote (slugOf p.objectTypeRaw)
        (generate_api_property_name p.originalName) = (r₁, .ok resp) →
      resp.status = 404 →
      api.postProp r₁ (slugOf p.objectTypeRaw) (build_payload p m) =
        (r₂, .ok resp₂) →
      ¬(resp₂.status = 200 ∨ resp₂.status = 201) →
      resp₂.subCategory = some NON_UNIQUE_LABEL →
      processRows api remote gc c k e (row :: rest) =
        processRows api r₂ gc c (k ++ [p.originalName]) e rest) ∧
    (∀ (r₁ r₂ : σ) (resp resp₂ : HttpResponse),
      api.getProp remote (slugOf p.objectTypeRaw)
        (generate_api_property_name p.originalName) = (r₁, .ok resp) →
      resp.status = 404 →
      api.postProp r₁ (slugOf p.objectTypeRaw) (build_payload p m) =
        (r₂, .ok resp₂) →
      ¬(resp₂.status = 200 ∨ resp₂.status = 201) →
      resp₂.subCategory ≠ some NON_UNIQUE_LABEL →
      processRows api remote gc c k e (row :: rest) =
        processRows api r₂ gc c k (e ++ [p.originalName]) rest) := by
  refine ⟨?_, ?_, ?_, ?_, ?_⟩
  · intro r₁ resp hg h200 h404
    exact processRows_cons_errored
      (rowStep_exists_ambiguous hp hs hgc hm hg h200 h404)
  · intro r₁ resp hg h200
    exact processRows_cons_skipped (rowStep_exists_true hp hs hgc hm hg h200)
  · intro r₁ r₂ resp resp₂ hg h404 hc hst
    exact processRows_cons_created
      (rowStep_created hp hs hgc hm hg h404 hc hst)
  · intro r₁ r₂ resp resp₂ hg h404 hc hst hsub
    exact processRows_cons_skipped
      (rowStep_dup_label hp hs hgc hm hg h404 hc hst hsub)
  · intro r₁ r₂ resp resp₂ hg h404 hc hst hsub
    exact processRows_cons_errored
      (rowStep_create_failed hp hs hgc hm hg h404 hc hst hsub)

/-- Witness for C4: the "exists already" branch on a concrete remote. -/
theorem C4_row_classification_witness :
    processRows api200 () [("contacts", true)] [] [] [] [sampleRow] =
      processRows api200 () [("contacts", true)] [] ["VIP Status"] [] [] :=
  (@C4_row_classification Unit api200 () [("contacts", true)] [] [] []
      sampleRow [] ⟨"VIP Status", "Single Checkbox", "", "Contact"⟩
      ⟨"bool", "booleancheckbox", false⟩
      rfl (by decide) rfl rfl).2.1
    () { status := 200 } rfl rfl
/-- C6: the type mapper is exactly the eleven-entry fixed table, returns
`none` for every other string, and an unknown property type sends the row to
the errors list while the run continues. -/
theorem C6_type_mapper :
    TYPE_MAPPING "Text" = some ⟨"string", "text", false⟩ ∧
    TYPE_MAPPING "Single-line Text" = some ⟨"string", "text", false⟩ ∧
    TYPE_MAPPING "Multi-line Text" = some ⟨"string", "textarea", false⟩ ∧
    TYPE_MAPPING "Number" = some ⟨"number", "number", false⟩ ∧
    TYPE_MAPPING "Currency Number" = some ⟨"number", "number", false⟩ ∧
    TYPE_MAPPING "Dropdown" = some ⟨"enumeration", "select", false⟩ ∧
    TYPE_MAPPING "Multiple Checkboxes" = some ⟨"enumeration", "select", true⟩ ∧
    TYPE_MAPPING "Unformatted Number" = some ⟨"number", "number", false⟩ ∧
    TYPE_MAPPING "Single Checkbox" = some ⟨"bool", "booleancheckbox", false⟩ ∧
    TYPE_MAPPING "HubSpot User" = some ⟨"string", "text", false⟩ ∧
    TYPE_MAPPING "Date Picker" = some ⟨"date", "date", false⟩ ∧
    (∀ s : String,
      s ∉ (["Text", "Single-line Text", "Multi-line Text", "Number",
        "Currency Number", "Dropdown", "Multiple Checkboxes",
        "Unformatted Number", "Single Checkbox", "HubSpot User",
        "Date Picker"] : List String) →
      TYPE_MAPPING s = none) ∧
    (∀ (σ₀ : Type) (api : RemoteApi σ₀) (remote : σ₀)
      (gc : List (String × Bool)) (c k e : List String)
      (row : List (String × String)) (rest : List (List (String × String)))
      (p : ParsedRow),
      parseRow row = .ok p → slugOf p.objectTypeRaw ≠ "" →
      gc.lookup (slugOf p.objectTypeRaw) = some true →
      TYPE_MAPPING p.rawType = none →
      processRows api remote gc c k e (row :: rest) =
        processRows api remote gc c k (e ++ [p.originalName]) rest) := by
  refine ⟨rfl, rfl, rfl, rfl, rfl, rfl, rfl, rfl, rfl, rfl, rfl, ?_, ?_⟩
  · intro s hs
    simp only [List.mem_cons, List.not_mem_nil, or_false, not_or] at hs
    obtain ⟨h1, h2, h3, h4, h5, h6, h7, h8, h9, h10, h11⟩ := hs
    simp [TYPE_MAPPING, h1, h2, h3, h4, h5, h6, h7, h8, h9, h10, h11]
  · intro σ₀ api remote gc c k e row rest p hp hs hgc hm
    exact processRows_cons_errored (rowStep_unknown_type hp hs hgc hm)

/-- Witness for C6: an unmapped raw type, and the concrete row it errors. -/
theorem C6_type_mapper_witness :
    TYPE_MAPPING "Weird" = none ∧
    processRows api404 () [("contacts", true)] [] [] [] [badTypeRow] =
      processRows api404 () [("contacts", true)] [] [] ["X"] [] := by
  have h := C6_type_mapper
  refine ⟨h.2.2.2.2.2.2.2.2.2.2.2.1 "Weird" (by decide), ?_⟩
  have h13 := h.2.2.2.2.2.2.2.2.2.2.2.2 Unit api404 () [("contacts", true)]
    [] [] [] badTypeRow [] ⟨"X", "Weird", "", "Contact"⟩ rfl (by decide) rfl rfl
  simpa using h13

/-- C8: option parsing splits on commas, strips tokens, drops empty tokens,
keeps order and duplicates, pairs each token with its lowercased
underscore value, and the options key appears exactly for choice-like raw
types with non-empty option text. -/
theorem C8_option_parsing :
    build_options "Red, Blue,  Green" =
      [⟨"Red", "red"⟩, ⟨"Blue", "blue"⟩, ⟨"Green", "green"⟩] ∧
    build_options "Red, Blue,  Green," =
      [⟨"Red", "red"⟩, ⟨"Blue", "blue"⟩, ⟨"Green", "green"⟩] ∧
    build_options "A, A" = [⟨"A", "a"⟩, ⟨"A", "a"⟩] ∧
    (∀ (p : ParsedRow) (m : TypeMapping),
      (p.rawType = "Dropdown" ∨ p.rawType = "Multiple Checkboxes" ∨
        p.rawType = "Single Checkbox") → p.rawOptions ≠ "" →
      (build_payload p m).options = some (build_options p.rawOptions)) ∧
    (∀ (p : ParsedRow) (m : TypeMapping),
      ¬((p.rawType = "Dropdown" ∨ p.rawType = "Multiple Checkboxes" ∨
        p.rawType = "Single Checkbox") ∧ p.rawOptions ≠ "") →
      (build_payload p m).options = none) := by
  refine ⟨by decide, by decide, by decide, ?_, ?_⟩
  · intro p m h1 h2
    show (if _ then some (build_options p.rawOptions) else none) = _
    rw [if_pos ⟨h1, h2⟩]
  · intro p m h
    show (if _ then some (build_options p.rawOptions) else none) = _
    rw [if_neg h]

/-- Witness for C8: the payload of a concrete Dropdown row. -/
theorem C8_option_parsing_witness :
    (build_payload ⟨"Favorite Color", "Dropdown", "Red, Blue,  Green",
        "Contact"⟩ ⟨"enumeration", "select", false⟩).options =
      some (build_options "Red, Blue,  Green") :=
  C8_option_parsing.2.2.2.1 _ _ (Or.inl rfl) (by decide)

/-- C9: a completed run partitions its rows: the trace assigns each row
exactly one outcome carrying its original name; `created`, `skipped` and
`errors` are the outcome-filtered name sequences in encounter order; and the
three lengths sum to the number of rows. -/
theorem C9_outcome_partition {σ : Type} (api : RemoteApi σ) (remote : σ)
    (rows : List (List (String × String))) (r₁ : σ) (sum : RunSummary)
    (h : process_csv api remote rows = .ok (r₁, sum)) :
    ∃ tr, rowTrace api remote [] rows = .ok tr ∧
      namesOf rows = .ok (tr.map Prod.fst) ∧
      sum.created = ofOutcome .created tr ∧
      sum.skipped = ofOutcome .skipped tr ∧
      sum.errors = ofOutcome .errored tr ∧
      sum.created.length + sum.skipped.length + sum.errors.length =
        rows.length := by
  obtain ⟨tr, htr, h1, h2, h3⟩ :=
    processRows_trace rows remote [] [] [] [] r₁ sum h
  obtain ⟨hn, hl⟩ := rowTrace_names rows remote [] tr htr
  simp only [List.nil_append] at h1 h2 h3
  refine ⟨tr, htr, hn, h1, h2, h3, ?_⟩
  rw [h1, h2, h3, ofOutcome_triple_length tr, hl]

/-- Witness for C9 at a one-row run that creates the property. -/
theorem C9_outcome_partition_witness :
    ∃ tr, rowTrace api404 () [] [sampleRow] = .ok tr ∧
      namesOf [sampleRow] = .ok (tr.map Prod.fst) ∧
      (RunSummary.mk ["VIP Status"] [] []).created = ofOutcome .created tr ∧
      (RunSummary.mk ["VIP Status"] [] []).skipped = ofOutcome .skipped tr ∧
      (RunSummary.mk ["VIP Status"] [] []).errors = ofOutcome .errored tr ∧
      (RunSummary.mk ["VIP Status"] [] []).created.length +
        (RunSummary.mk ["VIP Status"] [] []).skipped.length +
        (RunSummary.mk ["VIP Status"] [] []).errors.length =
        [sampleRow].length :=
  C9_outcome_partition api404 () [sampleRow] () ⟨["VIP Status"], [], []⟩ rfl

/-- C10: with a row lacking the `Property Name` column, the run aborts with an
uncaught `KeyError` before any summary — even though a later well-formed row
was still pending. -/
theorem C10_missing_column_aborts :
    process_csv api404 () [missingColumnRow, sampleRow] =
      .error (.keyError "Property Name") := rfl
/-- C1 fails on the code: a transport exception in the property-existence
check is not caught anywhere — the whole run aborts with the raised
exception, producing no summary, and the second row is never processed. -/
theorem C1_counterexample :
    process_csv throwGetApi () [sampleRow, sampleRow] =
      .error (.transport "ConnectionError") := rfl

/-- C1 (amended): transport-level exceptions are converted to a sentinel only
around the group-ensure call; one raised during the existence check or the
creation call for a row that reaches them propagates out of `process_csv` and
aborts the run with no summary. -/
theorem C1_amended_transport_policy {σ : Type} {api : RemoteApi σ} {remote : σ}
    {gc : List (String × Bool)} {c k e : List String}
    {row : List (String × String)} {rest : List (List (String × String))}
    {p : ParsedRow} {m : TypeMapping}
    (hp : parseRow row = .ok p) (hs : slugOf p.objectTypeRaw ≠ "")
    (hgc : gc.lookup (slugOf p.objectTypeRaw) = some true)
    (hm : TYPE_MAPPING p.rawType = some m) :
    (∀ (r₁ : σ) (msg : String),
      api.getProp remote (slugOf p.objectTypeRaw)
        (generate_api_property_name p.originalName) = (r₁, .error msg) →
      processRows api remote gc c k e (row :: rest) =
        .error (.transport msg)) ∧
    (∀ (r₁ r₂ : σ) (resp : HttpResponse) (msg : String),
      api.getProp remote (slugOf p.objectTypeRaw)
        (generate_api_property_name p.originalName) = (r₁, .ok resp) →
      resp.status = 404 →
      api.postProp r₁ (slugOf p.objectTypeRaw) (build_payload p m) =
        (r₂, .error msg) →
      processRows api remote gc c k e (row :: rest) =
        .error (.transport msg)) ∧
    (∀ (st : σ) (t : String) (st₁ : σ) (msg : String),
      api.getGroups st t = (st₁, .error msg) →
      ensure_property_group api st t GROUP_ID GROUP_DISPLAY_NAME =
        (st₁, false)) := by
  refine ⟨?_, ?_, ?_⟩
  · intro r₁ msg hg
    exact processRows_cons_error (rowStep_exists_throws hp hs hgc hm hg)
  · intro r₁ r₂ resp msg hg h404 hc
    exact processRows_cons_error (rowStep_post_throws hp hs hgc hm hg h404 hc)
  · intro st t st₁ msg hg
    simp [ensure_property_group, hg]

/-- Witness for the amended C1: concrete aborts for a throwing existence
check and a throwing creation call, and the caught group-listing throw. -/
theorem C1_amended_transport_policy_witness :
    processRows throwGetApi () [("contacts", true)] [] [] [] [sampleRow] =
      .error (.transport "ConnectionError") ∧
    processRows throwPostApi () [("contacts", true)] [] [] [] [sampleRow] =
      .error (.transport "ConnectionError") ∧
    ensure_property_group throwGroupApi () "contacts" GROUP_ID
      GROUP_DISPLAY_NAME = ((), false) := by
  refine ⟨?_, ?_, ?_⟩
  · exact (@C1_amended_transport_policy Unit throwGetApi ()
      [("contacts", true)] [] [] [] sampleRow []
      ⟨"VIP Status", "Single Checkbox", "", "Contact"⟩
      ⟨"bool", "booleancheckbox", false⟩
      rfl (by decide) rfl rfl).1 () "ConnectionError" rfl
  · exact (@C1_amended_transport_policy Unit throwPostApi ()
      [("contacts", true)] [] [] [] sampleRow []
      ⟨"VIP Status", "Single Checkbox", "", "Contact"⟩
      ⟨"bool", "booleancheckbox", false⟩
      rfl (by decide) rfl rfl).2.1 () () { status := 404 } "ConnectionError"
      rfl rfl rfl
  · exact (@C1_amended_transport_policy Unit throwGroupApi ()
      [("contacts", true)] [] [] [] sampleRow []
      ⟨"VIP Status", "Single Checkbox", "", "Contact"⟩
      ⟨"bool", "booleancheckbox", false⟩
      rfl (by decide) rfl rfl).2.2 () "contacts" () "ConnectionError" rfl
/-! ### The ideal remote: lemmas for the idempotence claim -/

lemma ideal_groupNames_mem {s : HubState} {t gid : String} :
    gid ∈ (s.groups.filter (fun g => decide (g.1 = t))).map Prod.snd ↔
      (t, gid) ∈ s.groups := by
  simp only [List.mem_map, List.mem_filter, decide_eq_true_eq]
  constructor
  · rintro ⟨⟨a, b⟩, ⟨hmem, rfl⟩, rfl⟩
    exact hmem
  · intro h
    exact ⟨(t, gid), ⟨h, rfl⟩, rfl⟩

lemma ideal_ensure (s : HubState) (t : String) :
    ensure_property_group idealApi s t GROUP_ID GROUP_DISPLAY_NAME =
      (if (t, GROUP_ID) ∈ s.groups then s
       else { s with groups := s.groups ++ [(t, GROUP_ID)] }, true) := by
  by_cases h : (t, GROUP_ID) ∈ s.groups
  · rw [if_pos h]
    simp [ensure_property_group, idealApi, ideal_groupNames_mem, h]
  · rw [if_neg h]
    simp [ensure_property_group, idealApi, ideal_groupNames_mem, h]

lemma ideal_exists_mem {s : HubState} {t n : String} (h : (t, n) ∈ s.props) :
    idealApi.getProp s t n = (s, .ok ⟨200, none, []⟩) := by
  simp [idealApi, h]

lemma ideal_exists_not_mem {s : HubState} {t n : String}
    (h : (t, n) ∉ s.props) :
    idealApi.getProp s t n = (s, .ok ⟨404, none, []⟩) := by
  simp [idealApi, h]

/-- A valid row processed with a cache hit against the ideal remote: skipped
when the property exists, created (appending it) when it does not. -/
lemma ideal_rowStep_cached {s : HubState} {gc : List (String × Bool)}
    {row : List (String × String)} {p : ParsedRow} {m : TypeMapping}
    (hp : parseRow row = .ok p) (hs : slugOf p.objectTypeRaw ≠ "")
    (hgc : gc.lookup (slugOf p.objectTypeRaw) = some true)
    (hm : TYPE_MAPPING p.rawType = some m) :
    rowStep idealApi s gc row =
      if (slugOf p.objectTypeRaw,
          generate_api_property_name p.originalName) ∈ s.props then
        .ok (s, gc, p.originalName, .skipped)
      else
        .ok ({ s with props := s.props ++
            [(slugOf p.objectTypeRaw,
              generate_api_property_name p.originalName)] },
          gc, p.originalName, .created) := by
  by_cases hmem : (slugOf p.objectTypeRaw,
      generate_api_property_name p.originalName) ∈ s.props
  · rw [if_pos hmem]
    exact rowStep_exists_true hp hs hgc hm (ideal_exists_mem hmem) rfl
  · rw [if_neg hmem]
    exact rowStep_created hp hs hgc hm (ideal_exists_not_mem hmem) rfl rfl
      (Or.inr rfl)

/-- Processing one valid row against the ideal remote: the row is skipped or
created, the remote only grows, and afterwards both the group and the
property for this row are present remotely. -/
lemma ideal_rowStep_valid {s : HubState} {gc : List (String × Bool)}
    {row : List (String × String)} {p : ParsedRow} {m : TypeMapping}
    (hp : parseRow row = .ok p) (hs : slugOf p.objectTypeRaw ≠ "")
    (hm : TYPE_MAPPING p.rawType = some m)
    (hI : ∀ t b, gc.lookup t = some b → b = true ∧ (t, GROUP_ID) ∈ s.groups) :
    ∃ (s' : HubState) (gc' : List (String × Bool)) (oc : RowOutcome),
      rowStep idealApi s gc row = .ok (s', gc', p.originalName, oc) ∧
      (∀ t b, gc'.lookup t = some b → b = true ∧ (t, GROUP_ID) ∈ s'.groups) ∧
      s.groups ⊆ s'.groups ∧ s.props ⊆ s'.props ∧
      (slugOf p.objectTypeRaw, GROUP_ID) ∈ s'.groups ∧
      (slugOf p.objectTypeRaw,
        generate_api_property_name p.originalName) ∈ s'.props := by
  match hgc : gc.lookup (slugOf p.objectTypeRaw) with
  | some b =>
    obtain ⟨hb, hgrp⟩ := hI _ _ hgc
    subst hb
    rw [ideal_rowStep_cached hp hs hgc hm]
    by_cases hmem : (slugOf p.objectTypeRaw,
        generate_api_property_name p.originalName) ∈ s.props
    · rw [if_pos hmem]
      exact ⟨s, gc, .skipped, rfl, hI, fun x hx => hx, fun x hx => hx,
        hgrp, hmem⟩
    · rw [if_neg hmem]
      refine ⟨_, gc, .created, rfl, ?_, fun x hx => hx,
        fun x hx => List.mem_append_left _ hx, hgrp, ?_⟩
      · intro t b hb
        obtain ⟨hb1, hb2⟩ := hI t b hb
        exact ⟨hb1, hb2⟩
      · exact List.mem_append_right _ (List.mem_singleton.mpr rfl)
  | none =>
    have hens := ideal_ensure s (slugOf p.objectTypeRaw)
    by_cases hgrp : (slugOf p.objectTypeRaw, GROUP_ID) ∈ s.groups
    · rw [if_pos hgrp] at hens
      rw [rowStep_uncached_true hp hs hgc hens]
      have hgc₂ : ((slugOf p.objectTypeRaw, true) :: gc).lookup
          (slugOf p.objectTypeRaw) = some true := by simp [List.lookup]
      have hI₂ : ∀ t b, ((slugOf p.objectTypeRaw, true) :: gc).lookup t =
          some b → b = true ∧ (t, GROUP_ID) ∈ s.groups := by
        intro t b hb
        by_cases ht : t = slugOf p.objectTypeRaw
        · subst ht
          rw [hgc₂] at hb
          exact ⟨(Option.some.inj hb).symm, hgrp⟩
        · have hbe : (t == slugOf p.objectTypeRaw) = false :=
            beq_eq_false_iff_ne.mpr ht
          simp only [List.lookup, hbe] at hb
          exact hI t b hb
      rw [ideal_rowStep_cached hp hs hgc₂ hm]
      by_cases hmem : (slugOf p.objectTypeRaw,
          generate_api_property_name p.originalName) ∈ s.props
      · rw [if_pos hmem]
        exact ⟨s, _, .skipped, rfl, hI₂, fun x hx => hx, fun x hx => hx,
          hgrp, hmem⟩
      · rw [if_neg hmem]
        refine ⟨_, _, .created, rfl, hI₂, fun x hx => hx,
          fun x hx => List.mem_append_left _ hx, hgrp, ?_⟩
        exact List.mem_append_right _ (List.mem_singleton.mpr rfl)
    · rw [if_neg hgrp] at hens
      rw [rowStep_uncached_true hp hs hgc hens]
      have hgrp₂ : (slugOf p.objectTypeRaw, GROUP_ID) ∈
          ({ s with groups := s.groups ++ [(slugOf p.objectTypeRaw, GROUP_ID)] }
            : HubState).groups :=
        List.mem_append_right _ (List.mem_singleton.mpr rfl)
      have hgc₂ : ((slugOf p.objectTypeRaw, true) :: gc).lookup
          (slugOf p.objectTypeRaw) = some true := by simp [List.lookup]
      have hI₂ : ∀ t b, ((slugOf p.objectTypeRaw, true) :: gc).lookup t =
          some b → b = true ∧ (t, GROUP_ID) ∈
            ({ s with groups := s.groups ++
              [(slugOf p.objectTypeRaw, GROUP_ID)] } : HubState).groups := by
        intro t b hb
        by_cases ht : t = slugOf p.objectTypeRaw
        · subst ht
          rw [hgc₂] at hb
          exact ⟨(Option.some.inj hb).symm, hgrp₂⟩
        · have hbe : (t == slugOf p.objectTypeRaw) = false :=
            beq_eq_false_iff_ne.mpr ht
          simp only [List.lookup, hbe] at hb
          obtain ⟨hb1, hb2⟩ := hI t b hb
          exact ⟨hb1, List.mem_append_left _ hb2⟩
      rw [ideal_rowStep_cached hp hs hgc₂ hm]
      by_cases hmem : (slugOf p.objectTypeRaw,
          generate_api_property_name p.originalName) ∈ s.props
      · rw [if_pos hmem]
        exact ⟨_, _, .skipped, rfl, hI₂,
          fun x hx => List.mem_append_left _ hx, fun x hx => hx,
          hgrp₂, hmem⟩
      · rw [if_neg hmem]
        refine ⟨_, _, .created, rfl, hI₂,
          fun x hx => List.mem_append_left _ hx,
          fun x hx => List.mem_append_left _ hx, hgrp₂, ?_⟩
        exact List.mem_append_right _ (List.mem_singleton.mpr rfl)

/-- After a completed ideal run over valid rows, every row's group and
property exist remotely, and the remote only grew. -/
lemma ideal_run_establishes (rows : List (List (String × String))) :
    ∀ (s : HubState) (gc : List (String × Bool)) (c k e : List String)
      (s₁ : HubState) (sum : RunSummary),
      (∀ row ∈ rows, validRow row) →
      (∀ t b, gc.lookup t = some b → b = true ∧ (t, GROUP_ID) ∈ s.groups) →
      processRows idealApi s gc c k e rows = .ok (s₁, sum) →
      s.groups ⊆ s₁.groups ∧ s.props ⊆ s₁.props ∧
      ∀ row ∈ rows, ∀ p, parseRow row = .ok p →
        (slugOf p.objectTypeRaw, GROUP_ID) ∈ s₁.groups ∧
        (slugOf p.objectTypeRaw,
          generate_api_property_name p.originalName) ∈ s₁.props := by
  induction rows with
  | nil =>
    intro s gc c k e s₁ sum hv hI h
    rw [processRows_nil] at h
    simp only [Except.ok.injEq, Prod.mk.injEq] at h
    obtain ⟨h1, h2⟩ := h
    subst h1
    exact ⟨fun x hx => hx, fun x hx => hx,
      fun row hrow => absurd hrow (List.not_mem_nil row)⟩
  | cons row rest ih =>
    intro s gc c k e s₁ sum hv hI h
    obtain ⟨p, hp, hs, hm'⟩ := hv row (List.mem_cons_self row rest)
    obtain ⟨m, hm⟩ := Option.isSome_iff_exists.mp hm'
    obtain ⟨s', gc', oc, hstep, hI', hgs, hps, hgrp, hprop⟩ :=
      ideal_rowStep_valid hp hs hm hI
    have hv' : ∀ r ∈ rest, validRow r :=
      fun r hr => hv r (List.mem_cons_of_mem row hr)
    have hnext : ∃ c' k' e', processRows idealApi s' gc' c' k' e' rest =
        .ok (s₁, sum) := by
      cases oc
      · rw [processRows_cons_created hstep] at h
        exact ⟨_, _, _, h⟩
      · rw [processRows_cons_skipped hstep] at h
        exact ⟨_, _, _, h⟩
      · rw [processRows_cons_errored hstep] at h
        exact ⟨_, _, _, h⟩
    obtain ⟨c', k', e', hrun⟩ := hnext
    obtain ⟨hgs₁, hps₁, hmem₁⟩ := ih s' gc' c' k' e' s₁ sum hv' hI' hrun
    refine ⟨fun x hx => hgs₁ (hgs hx), fun x hx => hps₁ (hps hx), ?_⟩
    intro r hr q hq
    rcases List.mem_cons.mp hr with rfl | hr'
    · rw [hp] at hq
      obtain rfl := Except.ok.inj hq
      exact ⟨hgs₁ hgrp, hps₁ hprop⟩
    · exact hmem₁ r hr' q hq

/-- A valid row whose group and property already exist remotely is skipped and
leaves the remote state untouched. -/
lemma ideal_rowStep_skips {s : HubState} {gc : List (String × Bool)}
    {row : List (String × String)} {p : ParsedRow} {m : TypeMapping}
    (hp : parseRow row = .ok p) (hs : slugOf p.objectTypeRaw ≠ "")
    (hm : TYPE_MAPPING p.rawType = some m)
    (hI : ∀ t b, gc.lookup t = some b → b = true ∧ (t, GROUP_ID) ∈ s.groups)
    (hgrp : (slugOf p.objectTypeRaw, GROUP_ID) ∈ s.groups)
    (hprop : (slugOf p.objectTypeRaw,
      generate_api_property_name p.originalName) ∈ s.props) :
    ∃ gc', rowStep idealApi s gc row = .ok (s, gc', p.originalName, .skipped) ∧
      (∀ t b, gc'.lookup t = some b → b = true ∧ (t, GROUP_ID) ∈ s.groups) := by
  match hgc : gc.lookup (slugOf p.objectTypeRaw) with
  | some b =>
    obtain ⟨hb, _⟩ := hI _ _ hgc
    subst hb
    rw [ideal_rowStep_cached hp hs hgc hm, if_pos hprop]
    exact ⟨gc, rfl, hI⟩
  | none =>
    have hens := ideal_ensure s (slugOf p.objectTypeRaw)
    rw [if_pos hgrp] at hens
    rw [rowStep_uncached_true hp hs hgc hens]
    have hgc₂ : ((slugOf p.objectTypeRaw, true) :: gc).lookup
        (slugOf p.objectTypeRaw) = some true := by simp [List.lookup]
    rw [ideal_rowStep_cached hp hs hgc₂ hm, if_pos hprop]
    refine ⟨_, rfl, ?_⟩
    intro t b hb
    by_cases ht : t = slugOf p.objectTypeRaw
    · subst ht
      rw [hgc₂] at hb
      exact ⟨(Option.some.inj hb).symm, hgrp⟩
    · have hbe : (t == slugOf p.objectTypeRaw) = false :=
        beq_eq_false_iff_ne.mpr ht
      simp only [List.lookup, hbe] at hb
      exact hI t b hb

lemma rowNameD_of_parse {row : List (String × String)} {p : ParsedRow}
    (hp : parseRow row = .ok p) : rowNameD row = p.originalName := by
  simp only [parseRow] at hp
  match h1 : row.lookup "Property Name" with
  | none =>
    simp only [h1] at hp
    exact absurd hp (by simp)
  | some v₁ =>
    simp only [h1] at hp
    match h2 : row.lookup "Property Type" with
    | none =>
      simp only [h2] at hp
      exact absurd hp (by simp)
    | some v₂ =>
      simp only [h2] at hp
      match h3 : row.lookup "Property Options" with
      | none =>
        simp only [h3] at hp
        exact absurd hp (by simp)
      | some v₃ =>
        simp only [h3] at hp
        match h4 : row.lookup "Object Type" with
        | none =>
          simp only [h4] at hp
          exact absurd hp (by simp)
        | some v₄ =>
          simp only [h4] at hp
          obtain rfl := Except.ok.inj hp
          simp [rowNameD, h1]

/-- A second pass over valid rows whose groups and properties all exist
remotely skips every row and leaves the remote state unchanged. -/
lemma ideal_second_run (rows : List (List (String × String))) :
    ∀ (s : HubState) (gc : List (String × Bool)) (c k e : List String),
      (∀ row ∈ rows, validRow row) →
      (∀ t b, gc.lookup t = some b → b = true ∧ (t, GROUP_ID) ∈ s.groups) →
      (∀ row ∈ rows, ∀ p, parseRow row = .ok p →
        (slugOf p.objectTypeRaw, GROUP_ID) ∈ s.groups ∧
        (slugOf p.objectTypeRaw,
          generate_api_property_name p.originalName) ∈ s.props) →
      processRows idealApi s gc c k e rows =
        .ok (s, ⟨c, k ++ rows.map rowNameD, e⟩) := by
  induction rows with
  | nil =>
    intro s gc c k e hv hI hmem
    rw [processRows_nil]
    simp
  | cons row rest ih =>
    intro s gc c k e hv hI hmem
    obtain ⟨p, hp, hs, hm'⟩ := hv row (List.mem_cons_self row rest)
    obtain ⟨m, hm⟩ := Option.isSome_iff_exists.mp hm'
    obtain ⟨hgrp, hprop⟩ := hmem row (List.mem_cons_self row rest) p hp
    obtain ⟨gc', hstep, hI'⟩ :=
      ideal_rowStep_skips hp hs hm hI hgrp hprop
    rw [processRows_cons_skipped hstep]
    rw [ih s gc' c (k ++ [p.originalName]) e
      (fun r hr => hv r (List.mem_cons_of_mem row hr)) hI'
      (fun r hr => hmem r (List.mem_cons_of_mem row hr))]
    simp [rowNameD_of_parse hp]

/-- C3 fails on the code: a row with an unknown property type errors on the
first run and errors again — not skips — on the second run over the carried
remote state. -/
theorem C3_counterexample :
    process_csv idealApi ⟨[], []⟩ [badTypeRow] =
      .ok (⟨[("contacts", GROUP_ID)], []⟩, ⟨[], [], ["X"]⟩) ∧
    process_csv idealApi ⟨[("contacts", GROUP_ID)], []⟩ [badTypeRow] =
      .ok (⟨[("contacts", GROUP_ID)], []⟩, ⟨[], [], ["X"]⟩) :=
  ⟨rfl, rfl⟩

/-- C3 (amended): over the ideal remote, if every row is well-formed (all
four columns, non-empty resolved object type, known property type), then a
second run over the state produced by the first classifies every row as
skipped, leaving created and errors empty and the remote state unchanged. -/
theorem C3_amended_idempotent_rerun
    (rows : List (List (String × String))) (s0 s1 : HubState)
    (sum1 : RunSummary)
    (hv : ∀ row ∈ rows, validRow row)
    (h1 : process_csv idealApi s0 rows = .ok (s1, sum1)) :
    process_csv idealApi s1 rows =
      .ok (s1, ⟨[], rows.map rowNameD, []⟩) := by
  obtain ⟨_, _, hmem⟩ := ideal_run_establishes rows s0 [] [] [] [] s1 sum1 hv
    (fun t b hb => by simp at hb) h1
  have h2 := ideal_second_run rows s1 [] [] [] [] hv
    (fun t b hb => by simp at hb) hmem
  simpa using h2

/-- Witness for the amended C3: a concrete one-row rerun, all skipped. -/
theorem C3_amended_idempotent_rerun_witness :
    process_csv idealApi ⟨[("contacts", GROUP_ID)], [("contacts", "vip_status")]⟩
      [sampleRow] =
      .ok (⟨[("contacts", GROUP_ID)], [("contacts", "vip_status")]⟩,
        ⟨[], ["VIP Status"], []⟩) := by
  have h := C3_amended_idempotent_rerun [sampleRow] ⟨[], []⟩
    ⟨[("contacts", GROUP_ID)], [("contacts", "vip_status")]⟩
    ⟨["VIP Status"], [], []⟩
    (fun row hrow => by
      obtain rfl := List.mem_singleton.mp hrow
      exact ⟨⟨"VIP Status", "Single Checkbox", "", "Contact"⟩, rfl,
        by decide, rfl⟩)
    rfl
  simpa using h
